import Mathlib

/-!
Shallow embedding of the TableFilter module (`src/table-filter.js`, and the
documented variant of the same module contained in `src/unnamed/part_000`).

Modelling conventions:
* DOM elements are identified by data: a table row element is identified by the
  0-based position of its `tr` in the original `tbody` (which `buildRowData`
  records in the `index` field); the materialized `tbody` is the list of those
  positions in DOM order.
* A `select` element is its list of option values together with `selectedIndex`
  (a `Nat`; the transient `-1` state of an empty select behaves like `0` for
  the `selectedIndex <= 0` test and is modelled as `0`).
* JavaScript strings are Lean `String`s; the comparison used by `Array.sort()`
  without a comparator is modelled by lexicographic `≤` on `String`.
* Code paths that would throw in JavaScript (`undefined.innerHTML`,
  `emptyElement.appendChild`, an invalid CSS selector) are modelled with
  `Except JsError`.
-/

namespace TableFilter

/-- Errors a JavaScript execution of the module can throw. -/
inductive JsError where
  /-- A `TypeError`: a property access or a call on `undefined`, or a call of a
  missing method (e.g. `emptyElement.appendChild`). -/
  | typeError : JsError
  /-- A DOM `SyntaxError`: `querySelector` called with an invalid selector
  (the documented variant interpolates a value into `option[value="..."]`). -/
  | syntaxError : JsError
  deriving Repr, DecidableEq

/-- The merged configuration object (`Table.prototype.parseConfig` result). -/
structure Config where
  emptyFilterText : String
  sortFilterValues : Bool
  numberOfColumns : Int
  deriving Repr, DecidableEq

/-- The caller-supplied options object: each recognized key may be present or
absent (`config.hasOwnProperty` test in `parseConfig`); unrecognized keys are
dropped by `parseConfig` and are not modelled. -/
structure UserOptions where
  emptyFilterText : Option String
  sortFilterValues : Option Bool
  numberOfColumns : Option Int
  deriving Repr, DecidableEq

/-- `Table.prototype.parseConfig`: start from the defaults
`{emptyFilterText: '', sortFilterValues: true, numberOfColumns: -1}` and
overwrite each key the caller supplied. -/
def parseConfig : Option UserOptions → Config
  | none => ⟨"", true, -1⟩
  | some u => ⟨u.emptyFilterText.getD "", u.sortFilterValues.getD true,
      u.numberOfColumns.getD (-1)⟩

/-- One entry of `this.rowData` (`buildRowData`): the row element is identified
by `index`, its 0-based position in the unfiltered `tbody`. -/
structure Row where
  index : Nat
  cellData : List String
  visible : Bool
  deriving Repr, DecidableEq

/-- A filter `select` element: its option values in document order and its
`selectedIndex`. -/
structure Dropdown where
  options : List String
  selectedIndex : Nat
  deriving Repr, DecidableEq

/-- The state of one `Table` instance: the snapshot (`rowData`), the filter
dropdowns, and the materialized `tbody` (`body`, the list of row positions
whose `tr` elements are currently in the DOM, in DOM order). -/
structure TableState where
  config : Config
  numberOfFilteredColumns : Nat
  numberOfRows : Nat
  rowData : List Row
  filterDropdowns : List Dropdown
  body : List Nat
  deriving Repr, DecidableEq

/-- The input `table` element: its `nodeName`, its `thead` (`some n` = a thead
whose `querySelectorAll('th')` yields `n` cells, `none` = no thead child, in
which case `findChild` substitutes `emptyElement`), and its `tbody` rows, each
given as the list of the `innerHTML` strings of its `td` cells. -/
structure DomTable where
  nodeName : String
  thead : Option Nat
  tbody : Option (List (List String))
  deriving Repr, DecidableEq

/-- Result of the public entry point `root.TableFilter`. -/
inductive AttachResult where
  /-- `console.error('Could not find element by selector', ...)` then return. -/
  | noElement : AttachResult
  /-- `console.error('Element with selector', ..., 'is not a table')` then return. -/
  | notTable : AttachResult
  /-- An exception escaped `new Table(element, options).createFilters()`. -/
  | thrown : JsError → AttachResult
  /-- Normal completion, with the resulting widget state. -/
  | attached : TableState → AttachResult
  deriving Repr, DecidableEq

/-- The number of filtered columns computed by the `Table` constructor in
`src/table-filter.js`: `headerCellElements` is sliced to
`config.numberOfColumns` when that is `> -1` (so the count becomes
`min(requested, total)`), otherwise left as all `total` header cells. -/
def computeNumberOfColumns (req : Int) (total : Nat) : Nat :=
  if req > -1 then min req.toNat total else total

/-- The same computation in the documented variant (`src/unnamed/part_000`):
the slice is taken only when `-1 < req` and `req ≤ total`. -/
def computeNumberOfColumnsDoc (req : Int) (total : Nat) : Nat :=
  if req > -1 ∧ req ≤ (total : Int) then req.toNat else total

/-- ECMAScript `\s` character class (WhiteSpace ∪ LineTerminator), which the
documented variant's `replace(/\s/g, ' ')` matches. -/
def isJsWhitespace (c : Char) : Bool :=
  c = ' ' ∨ c = '\t' ∨ c.val = 0x0A ∨ c.val = 0x0B ∨ c.val = 0x0C ∨ c.val = 0x0D ∨
  c.val = 0xA0 ∨ c.val = 0x1680 ∨ (0x2000 ≤ c.val ∧ c.val ≤ 0x200A) ∨
  c.val = 0x2028 ∨ c.val = 0x2029 ∨ c.val = 0x202F ∨ c.val = 0x205F ∨
  c.val = 0x3000 ∨ c.val = 0xFEFF

/-- `innerHTML.replace(/\s/g, ' ')` from the documented variant's
`buildRowData`: every whitespace character is replaced by one space
(`\s` never matches half of a surrogate pair, so acting per code point is
faithful). -/
def normalizeCellText (s : String) : String :=
  ⟨s.data.map (fun c => if isJsWhitespace c then ' ' else c)⟩

/-- The inner loop of `buildRowData`: for `columnIndex` from `0` to
`numberOfFilteredColumns - 1` read `dataCellElements[columnIndex].innerHTML`.
A missing cell is `undefined`, so the `.innerHTML` access throws a
`TypeError`. `norm` is the identity in `src/table-filter.js` and
`normalizeCellText` in the documented variant. (The preceding
`Array.prototype.slice` call never removes a cell below
`numberOfFilteredColumns`, so it is not modelled.) -/
def buildCellList (norm : String → String) (cells : List String) :
    List Nat → Except JsError (List String)
  | [] => Except.ok []
  | c :: cs =>
    match cells.get? c with
    | none => Except.error JsError.typeError
    | some s =>
      match buildCellList norm cells cs with
      | Except.error e => Except.error e
      | Except.ok rest => Except.ok (norm s :: rest)

/-- The cell-reading loop for one row, over columns `0 .. numFiltered-1`. -/
def buildCellData (norm : String → String) (numFiltered : Nat)
    (cells : List String) : Except JsError (List String) :=
  buildCellList norm cells (List.range numFiltered)

/-- The outer loop of `buildRowData`, starting at row position `i`. -/
def buildRowDataAux (norm : String → String) (numFiltered : Nat) :
    Nat → List (List String) → Except JsError (List Row)
  | _, [] => Except.ok []
  | i, cells :: rest =>
    match buildCellData norm numFiltered cells with
    | Except.error e => Except.error e
    | Except.ok cd =>
      match buildRowDataAux norm numFiltered (i + 1) rest with
      | Except.error e => Except.error e
      | Except.ok rs => Except.ok (⟨i, cd, true⟩ :: rs)

/-- `Table.prototype.buildRowData` of `src/table-filter.js`: the raw
`innerHTML` of each filtered cell, rows initially visible, `index` = position. -/
def buildRowData (numFiltered : Nat) (bodyRows : List (List String)) :
    Except JsError (List Row) :=
  buildRowDataAux id numFiltered 0 bodyRows

/-- `buildRowData` of the documented variant (`src/unnamed/part_000`): as
`buildRowData` but each cell value passes through `replace(/\s/g, ' ')`. -/
def buildRowDataDoc (numFiltered : Nat) (bodyRows : List (List String)) :
    Except JsError (List Row) :=
  buildRowDataAux normalizeCellText numFiltered 0 bodyRows

/-- The value a dropdown currently filters by:
`options[selectedIndex].value` when `selectedIndex > 0`, no constraint
otherwise (`rowMatchesFilters` only reads the value under that guard; an
out-of-range `selectedIndex` never occurs in reachable states). -/
def selValue (d : Dropdown) : Option String :=
  if d.selectedIndex > 0 then d.options.get? d.selectedIndex else none

/-- `Table.prototype.rowMatchesFilters`: iterate the dropdowns by column index
alongside the row's `cellData`; a dropdown with a non-default selection whose
value differs from the cell (or whose cell is missing — `undefined !== value`)
makes the row not match. -/
def rowMatchesFilters : List Dropdown → List String → Bool
  | [], _ => true
  | d :: ds, [] =>
    match selValue d with
    | some _ => false
    | none => rowMatchesFilters ds []
  | d :: ds, cell :: cells =>
    match selValue d with
    | some v => if cell = v then rowMatchesFilters ds cells else false
    | none => rowMatchesFilters ds cells

/-- The visibility assignment `filterData` produces: every row's `visible`
flag becomes `rowMatchesFilters` of its cell data. -/
def applyMatches (ds : List Dropdown) (rows : List Row) : List Row :=
  rows.map (fun r => { r with visible := rowMatchesFilters ds r.cellData })

/-- The collection loop of `Table.prototype.getVisibleDataCellValues`: walk
`rowData` in order and push `row.cellData[columnIndex]` for visible rows whose
value was not pushed before (`indexOf === -1`). -/
def collectValues (rows : List Row) (c : Nat) : List String :=
  rows.foldl (fun acc r =>
    match r.cellData.get? c with
    | some v => if r.visible && !(acc.contains v) then acc ++ [v] else acc
    | none => acc) []

/-- Character-list comparison underlying the default `Array.prototype.sort()`
string order (lexicographic by code point). -/
def charsLe : List Char → List Char → Bool
  | [], _ => true
  | _ :: _, [] => false
  | a :: as, b :: bs => if a = b then charsLe as bs else decide (a < b)

/-- The default JavaScript string comparison used by `sort()`. -/
def jsStringLe (a b : String) : Bool :=
  charsLe a.data b.data

/-- `jsStringLe` as a relation, for use with `List.insertionSort`. -/
def jsLeProp (a b : String) : Prop :=
  jsStringLe a b = true

instance (a b : String) : Decidable (jsLeProp a b) :=
  inferInstanceAs (Decidable (jsStringLe a b = true))

/-- `Table.prototype.getVisibleDataCellValues`: the distinct visible values of
the column, sorted (`Array.prototype.sort()`, i.e. lexicographic string order)
when `sortFilterValues` is set. (The list is duplicate-free, so any correct
sort — here insertion sort — produces the array `sort()` produces.) -/
def getVisibleDataCellValues (rows : List Row) (sortVals : Bool) (c : Nat) :
    List String :=
  let vals := collectValues rows c
  if sortVals then vals.insertionSort jsLeProp else vals

/-- Set the `visible` flag of the row object at position `i` of `rowData`
(mutation `row.visible = …` in `showRow`/`hideRow`). -/
def updateVisible : List Row → Nat → Bool → List Row
  | [], _, _ => []
  | r :: rs, 0, b => { r with visible := b } :: rs
  | r :: rs, n + 1, b => r :: updateVisible rs n b

/-- The `visible` flag of the row at position `i` (`false` beyond the table,
which never occurs in reachable states). -/
def flagAt (rows : List Row) (i : Nat) : Bool :=
  ((rows.get? i).map Row.visible).getD false

/-- The search loop of `showRow`: scan `fuel` positions starting at `k` and
return the first one whose row is visible. -/
def findFrom (flag : Nat → Bool) : Nat → Nat → Option Nat
  | _, 0 => none
  | k, fuel + 1 => if flag k then some k else findFrom flag (k + 1) fuel

/-- `for (rowIndex = row.index + 1; rowIndex < this.numberOfRows; rowIndex++)`
in `showRow`: the first position after `i` (and below `n`) holding a visible
row. -/
def findNextVisible (rows : List Row) (n i : Nat) : Option Nat :=
  findFrom (flagAt rows) (i + 1) (n - (i + 1))

/-- `Node.insertBefore(x, ref)` on the `tbody`: insert `x` immediately before
the first occurrence of `ref`. (`showRow` only passes a `ref` that is present
in the body — a visible row's element — so the fallback for an absent `ref`,
which would throw in the DOM, is immaterial.) -/
def insertBefore : List Nat → Nat → Nat → List Nat
  | [], x, _ => [x]
  | b :: rest, x, ref => if b = ref then x :: b :: rest else b :: insertBefore rest x ref

/-- `Table.prototype.showRow` acting on (`rowData`, materialized `tbody`): if
the row is hidden, insert its element before the element of the first visible
row with a higher index (or append when none exists) and mark it visible. -/
def showRow (n : Nat) (rows : List Row) (body : List Nat) (row : Row) :
    List Row × List Nat :=
  if row.visible then (rows, body)
  else
    let body' :=
      match findNextVisible rows n row.index with
      | some j => insertBefore body row.index j
      | none => body ++ [row.index]
    (updateVisible rows row.index true, body')

/-- `Table.prototype.hideRow`: if the row is visible, remove its element from
the `tbody` and mark it hidden. -/
def hideRow (rows : List Row) (body : List Nat) (row : Row) :
    List Row × List Nat :=
  if row.visible then (updateVisible rows row.index false, body.erase row.index)
  else (rows, body)

/-- One iteration of the `filterData` loop at row position `i`. -/
def filterStep (ds : List Dropdown) (n : Nat) (s : List Row × List Nat)
    (i : Nat) : List Row × List Nat :=
  match s.1.get? i with
  | none => s
  | some row =>
    if rowMatchesFilters ds row.cellData then showRow n s.1 s.2 row
    else hideRow s.1 s.2 row

/-- The full `filterData` loop over row positions `0 .. n-1`. -/
def filterDataRB (ds : List Dropdown) (n : Nat) (rows : List Row)
    (body : List Nat) : List Row × List Nat :=
  (List.range n).foldl (filterStep ds n) (rows, body)

/-- `Table.prototype.filterData` on the widget state. -/
def filterData (st : TableState) : TableState :=
  let s := filterDataRB st.filterDropdowns st.numberOfRows st.rowData st.body
  { st with rowData := s.1, body := s.2 }

/-- `Table.prototype.populateColumnFilter` of `src/table-filter.js`: only when
the dropdown is at its default selection (`selectedIndex <= 0`) clear it and
rebuild it as the empty-text option followed by the visible values of the
column; rebuilding auto-selects option 0. A dropdown with a non-default
selection is left untouched. -/
def populateColumnFilter (cfg : Config) (rows : List Row) (d : Dropdown)
    (c : Nat) : Dropdown :=
  if d.selectedIndex = 0 then
    { options := cfg.emptyFilterText ::
        getVisibleDataCellValues rows cfg.sortFilterValues c,
      selectedIndex := 0 }
  else d

/-- The `populateColumnFilters` loop, with `c` the column index of the first
remaining dropdown. -/
def populateFrom (cfg : Config) (rows : List Row) :
    Nat → List Dropdown → List Dropdown
  | _, [] => []
  | c, d :: ds => populateColumnFilter cfg rows d c :: populateFrom cfg rows (c + 1) ds

/-- `Table.prototype.populateColumnFilters` (src/table-filter.js variant). -/
def populateColumnFilters (cfg : Config) (rows : List Row)
    (ds : List Dropdown) : List Dropdown :=
  populateFrom cfg rows 0 ds

/-- Position of the first option with the given value
(`querySelector('option[value="' + v + '"]')` finds the first match). -/
def firstIdxOf : List String → String → Option Nat
  | [], _ => none
  | w :: ws, v => if w = v then some 0 else (firstIdxOf ws v).map (· + 1)

/-- The option list a rebuild produces: the empty-text option followed by the
column's visible values. -/
def rebuiltOptions (cfg : Config) (rows : List Row) (c : Nat) : List String :=
  cfg.emptyFilterText :: getVisibleDataCellValues rows cfg.sortFilterValues c

/-- Value of a hexadecimal digit, `none` for any other character (CSS Syntax
§4.2, hex digit). -/
def hexVal (c : Char) : Option Nat :=
  let n := c.toNat
  if 48 ≤ n ∧ n ≤ 57 then some (n - 48)
  else if 97 ≤ n ∧ n ≤ 102 then some (n - 87)
  else if 65 ≤ n ∧ n ≤ 70 then some (n - 55)
  else none

/-- Interpret the numeric value of a hex escape (CSS Syntax §4.3.7, consume an
escaped code point): zero, a surrogate, or a value beyond U+10FFFF stands for
U+FFFD. -/
def escapeChar (n : Nat) : Char :=
  if n = 0 ∨ (55296 ≤ n ∧ n ≤ 57343) ∨ 1114111 < n then Char.ofNat 65533
  else Char.ofNat n

/-- Consume up to `k` further hex digits of an escape, accumulating `acc`. -/
def takeHex : Nat → Nat → List Char → Nat × List Char
  | _, acc, [] => (acc, [])
  | 0, acc, cs => (acc, cs)
  | k + 1, acc, c :: cs =>
    match hexVal c with
    | some h => takeHex k (acc * 16 + h) cs
    | none => (acc, c :: cs)

/-- After the hex digits of an escape, a single whitespace character is
consumed as part of the escape (CSS Syntax §4.3.7). -/
def dropHexWs : List Char → List Char
  | [] => []
  | c :: cs => if c = ' ' ∨ c = '\t' ∨ c = '\n' then cs else c :: cs

/-- Per-character CSS input preprocessing: CR and FF become LF, NUL becomes
U+FFFD (CSS Syntax §3.3). -/
def cssMapChar (c : Char) : Char :=
  if c = '\r' ∨ c = '\x0c' then '\n'
  else if c = '\x00' then Char.ofNat 65533
  else c

/-- CSS input preprocessing (CSS Syntax §3.3): a CR LF pair collapses to one
LF, lone CR and FF become LF, NUL becomes U+FFFD. -/
def cssPreprocess : List Char → List Char
  | [] => []
  | [c] => [cssMapChar c]
  | c1 :: c2 :: cs =>
    if c1 = '\r' ∧ c2 = '\n' then '\n' :: cssPreprocess cs
    else cssMapChar c1 :: cssPreprocess (c2 :: cs)

/-- Outcome of tokenizing the string literal of the interpolated selector
`option[value="` + v + `"]`. `exact w`: the string token runs to the
template's closing quote and decodes to `w`, so the selector matches exactly
the options whose value is `w`. `invalid`: the selector is invalid and
`querySelector` throws a `SyntaxError`. `injected`: an unescaped `"` inside
`v` ends the string token early and the rest of `v` re-enters selector
parsing as selector syntax. -/
inductive CssQuery where
  | exact (w : List Char)
  | invalid
  | injected

/-- Prepend a decoded character to an `exact` decoding; `invalid` and
`injected` absorb. -/
def consCQ (c : Char) : CssQuery → CssQuery
  | CssQuery.exact w => CssQuery.exact (c :: w)
  | r => r

/-- Tokenize the body `v` of the double-quoted CSS string in
`option[value="` + v + `"]` (CSS Syntax §4.3.5, consume a string token; `v`
already preprocessed), with fuel `f > v.length`. A plain character is literal.
An unescaped LF makes a bad-string token, so the selector is invalid. A
backslash escape: before LF it is a line continuation; before a hex digit it
consumes up to 6 hex digits plus one trailing whitespace and decodes via
`escapeChar`; before any other character it yields that character; a
backslash that is the last character of `v` escapes the template's closing
quote, so the string swallows the rest of the selector and the attribute
selector is never closed — invalid. An unescaped `"` ends the string early:
the remainder of `v` is parsed as selector syntax (an injected selector).
The fuel-0 case is unreachable for `f > v.length`. -/
def cssDecodeBodyF : Nat → List Char → CssQuery
  | 0, _ => CssQuery.invalid
  | _ + 1, [] => CssQuery.exact []
  | f + 1, c :: cs =>
    if c = '\"' then CssQuery.injected
    else if c = '\n' then CssQuery.invalid
    else if c = '\\' then
      match cs with
      | [] => CssQuery.invalid
      | e :: cs2 =>
        if e = '\n' then cssDecodeBodyF f cs2
        else
          match hexVal e with
          | some h =>
            consCQ (escapeChar (takeHex 5 h cs2).1)
              (cssDecodeBodyF f (dropHexWs (takeHex 5 h cs2).2))
          | none => consCQ e (cssDecodeBodyF f cs2)
    else consCQ c (cssDecodeBodyF f cs)

/-- Decoding of the captured value `v` inside the interpolated selector
`option[value="` + v + `"]`, after CSS input preprocessing. -/
def cssDecodeBody (cs : List Char) : CssQuery :=
  cssDecodeBodyF (cs.length + 1) cs

/-- `populateColumnFilter` of the documented variant
(`src/unnamed/part_000`): capture the selected value when non-default, always
clear and rebuild the option list, then re-select via
`querySelector('option[value="' + capturedValue + '"]')` — the
`if (currentFilterValue)` truthiness test skips an empty captured string.
The captured value is interpolated into a double-quoted CSS string, so it is
preprocessed and decoded per the CSS string-token rules (`cssPreprocess`,
`cssDecodeBody`): when the string token runs to the template's closing quote
the selector matches exactly the first option whose value equals the decoded
string (for a value with a backslash this differs from the raw value, so the
raw value is NOT found), and an invalid selector (unescaped newline, or a
trailing backslash that escapes the closing quote) makes `querySelector`
throw a `SyntaxError`. A value with an unescaped `"` ends the string token
early and the remainder re-enters selector parsing; the resulting injected
selectors (which can be valid or invalid) are outside the modeled CSS
fragment and are mapped to `SyntaxError` as a stand-in — no theorem below
depends on this branch. When no option matches, `findChild` returns
`emptyElement` and setting `.selected` on it has no effect, leaving option 0
selected. -/
def populateColumnFilterDoc (cfg : Config) (rows : List Row) (d : Dropdown)
    (c : Nat) : Except JsError Dropdown :=
  match (if d.selectedIndex > 0 then d.options.get? d.selectedIndex else none) with
  | none => Except.ok ⟨rebuiltOptions cfg rows c, 0⟩
  | some v =>
    if v = "" then Except.ok ⟨rebuiltOptions cfg rows c, 0⟩
    else
      match cssDecodeBody (cssPreprocess v.data) with
      | CssQuery.exact w =>
        match firstIdxOf (rebuiltOptions cfg rows c) (String.mk w) with
        | some k => Except.ok ⟨rebuiltOptions cfg rows c, k⟩
        | none => Except.ok ⟨rebuiltOptions cfg rows c, 0⟩
      | CssQuery.invalid => Except.error JsError.syntaxError
      | CssQuery.injected => Except.error JsError.syntaxError

/-- Set `selectedIndex` of the dropdown at position `c` (the user picking an
option, or the spec-side "treat this column as default"). -/
def setSelectedIndex : List Dropdown → Nat → Nat → List Dropdown
  | [], _, _ => []
  | d :: ds, 0, k => { d with selectedIndex := k } :: ds
  | d :: ds, c + 1, k => d :: setSelectedIndex ds c k

/-- The user changes column `c`'s dropdown to option `k` (no handler yet). -/
def selectOption (st : TableState) (c k : Nat) : TableState :=
  { st with filterDropdowns := setSelectedIndex st.filterDropdowns c k }

/-- `Table.prototype.columnFilterChangeHandler`: `filterData()` then
`populateColumnFilters()`. -/
def columnFilterChangeHandler (st : TableState) : TableState :=
  let st1 := filterData st
  { st1 with filterDropdowns :=
      populateColumnFilters st1.config st1.rowData st1.filterDropdowns }

/-- One user-driven selection-change cycle: pick option `k` in column `c`,
then run the change handler. -/
def changeEvent (st : TableState) (c k : Nat) : TableState :=
  columnFilterChangeHandler (selectOption st c k)

/-- A sequence of selection-change cycles. -/
def applyEvents (st : TableState) (events : List (Nat × Nat)) : TableState :=
  events.foldl (fun s e => changeEvent s e.1 e.2) st

/-- The `Table` constructor of `src/table-filter.js` (everything before
`createFilters`): merge the config, count the header cells (an absent `thead`
yields `emptyElement`, whose `querySelectorAll` returns `[]`), compute the
filtered-column count, and build the row snapshot. The initial materialized
`tbody` holds every row in original order. -/
def tableInit (t : DomTable) (opts : Option UserOptions) :
    Except JsError TableState :=
  let cfg := parseConfig opts
  let totalCols := t.thead.getD 0
  let numFiltered := computeNumberOfColumns cfg.numberOfColumns totalCols
  let bodyRows := t.tbody.getD []
  (buildRowData numFiltered bodyRows).map (fun rd =>
    { config := cfg
      numberOfFilteredColumns := numFiltered
      numberOfRows := bodyRows.length
      rowData := rd
      filterDropdowns := []
      body := List.range bodyRows.length })

/-- `Table.prototype.createFilters`: build one dropdown per filtered column,
append the filter row to `headElement` — which throws a `TypeError` when the
table has no `thead`, because `findChild` substituted `emptyElement`, which
defines only `querySelector` and `querySelectorAll` — then populate every
dropdown. -/
def createFiltersE (hasThead : Bool) (cfg : Config) (numFiltered : Nat)
    (rows : List Row) : Except JsError (List Dropdown) :=
  let fresh := List.replicate numFiltered (Dropdown.mk [] 0)
  if hasThead then Except.ok (populateColumnFilters cfg rows fresh)
  else Except.error JsError.typeError

/-- `nodeName.toLowerCase()`: per-character lowering (ASCII suffices for DOM
node names such as `TABLE`). -/
def toLowerCase (s : String) : String :=
  ⟨s.data.map Char.toLower⟩

/-- The public entry point `root.TableFilter(selector, options)`. `found` is
the result of `document.querySelector(selector)`. -/
def TableFilterAttach (found : Option DomTable) (opts : Option UserOptions) :
    AttachResult :=
  match found with
  | none => AttachResult.noElement
  | some t =>
    if toLowerCase t.nodeName = "table" then
      match tableInit t opts with
      | Except.error e => AttachResult.thrown e
      | Except.ok st0 =>
        match createFiltersE t.thead.isSome st0.config
            st0.numberOfFilteredColumns st0.rowData with
        | Except.error e => AttachResult.thrown e
        | Except.ok ds => AttachResult.attached { st0 with filterDropdowns := ds }
    else AttachResult.notTable

/-! ### Specification-side definitions

These render the spec's wording, to be compared with the definitions
translated from the source. -/

/-- The column-count formula as the spec states it:
`max(0, min(requestedColumnCount, totalColumns))` for a finite request other
than `-1`, and `totalColumns` when `-1` is requested or the request exceeds
the total. -/
def specNumberOfColumns (req : Int) (total : Nat) : Nat :=
  if req = -1 ∨ req > (total : Int) then total
  else (max 0 (min req (total : Int))).toNat

/-- Whitespace normalization as the spec states it: every run of consecutive
whitespace characters collapses to a single space. `prevWs` records whether
the previous character was whitespace. -/
def collapseWsAux : List Char → Bool → List Char
  | [], _ => []
  | c :: rest, prevWs =>
    if isJsWhitespace c then
      if prevWs then collapseWsAux rest true
      else ' ' :: collapseWsAux rest true
    else c :: collapseWsAux rest false

/-- Spec-side whitespace normalization of a cell value. -/
def specCollapseWs (s : String) : String :=
  ⟨collapseWsAux s.data false⟩

/-- The option set the spec's mutual-narrowing rule prescribes for column `c`:
recompute every row's eligibility from the snapshot with column `c`'s own
selection treated as default and all other columns' current selections
applied, then collect the distinct values of column `c` among eligible rows
(ordered as the widget orders options). -/
def mutualNarrowOptions (st : TableState) (c : Nat) : List String :=
  getVisibleDataCellValues
    (applyMatches (setSelectedIndex st.filterDropdowns c 0) st.rowData)
    st.config.sortFilterValues c

/-- The spec's visibility predicate (P1): every filtered column with a
non-default selection matches the row's cell value. -/
def matchesSpec (ds : List Dropdown) (cells : List String) : Prop :=
  ∀ c v, (ds.get? c).bind selValue = some v → cells.get? c = some v

instance (ds : List Dropdown) (cells : List String) :
    Decidable (matchesSpec ds cells) := by
  unfold matchesSpec
  refine decidable_of_iff
    (∀ c < ds.length, ∀ v, (ds.get? c).bind selValue = some v →
      cells.get? c = some v) ⟨fun h c v hv => ?_, fun h c _ v hv => h c v hv⟩
  by_cases hc : c < ds.length
  · exact h c hc v hv
  · rw [List.get?_eq_none.2 (le_of_not_lt hc)] at hv; simp at hv

/-- First-occurrence deduplication, the order the spec prescribes for unsorted
option lists. -/
def firstOccurrenceList (l : List String) : List String :=
  l.foldl (fun acc v => if acc.contains v then acc else acc ++ [v]) []

/-! ### Well-formedness and the materialized-body invariant -/

/-- The snapshot's structural invariant: `rowData` has one entry per original
row and the `index` field of each entry equals its position. -/
def RowsWF (n : Nat) (rows : List Row) : Prop :=
  rows.length = n ∧ ∀ i r, rows.get? i = some r → r.index = i

/-- The materialized `tbody` invariant: the body lists exactly the positions
of visible rows, in strictly increasing order. -/
def BodyInv (rows : List Row) (body : List Nat) : Prop :=
  List.Sorted (· < ·) body ∧ ∀ x, x ∈ body ↔ flagAt rows x = true

/-! ### Basic lemmas about the embedded operations -/

theorem get?_updateVisible (rows : List Row) (i k : Nat) (b : Bool) :
    (updateVisible rows i b).get? k =
      if k = i then (rows.get? k).map (fun r => { r with visible := b })
      else rows.get? k := by
  induction rows generalizing i k with
  | nil => simp [updateVisible]
  | cons r rs ih =>
    cases i with
    | zero =>
      cases k with
      | zero => simp [updateVisible]
      | succ k => simp [updateVisible]
    | succ i =>
      cases k with
      | zero => simp [updateVisible]
      | succ k =>
        have h1 : (updateVisible (r :: rs) (i + 1) b).get? (k + 1) =
            (updateVisible rs i b).get? k := rfl
        have h2 : (r :: rs).get? (k + 1) = rs.get? k := rfl
        rw [h1, h2, ih i k]
        by_cases h : k = i
        · rw [if_pos h, if_pos (by omega)]
        · rw [if_neg h, if_neg (by omega)]

theorem length_updateVisible (rows : List Row) (i : Nat) (b : Bool) :
    (updateVisible rows i b).length = rows.length := by
  induction rows generalizing i with
  | nil => simp [updateVisible]
  | cons r rs ih =>
    cases i with
    | zero => simp [updateVisible]
    | succ i => simp [updateVisible, ih i]

theorem flagAt_updateVisible (rows : List Row) (i k : Nat) (b : Bool) :
    flagAt (updateVisible rows i b) k =
      if k = i ∧ i < rows.length then b else flagAt rows k := by
  unfold flagAt
  rw [get?_updateVisible]
  by_cases hk : k = i
  · subst hk
    by_cases hl : k < rows.length
    · obtain ⟨r, hr⟩ : ∃ r, rows.get? k = some r := by
        rw [List.get?_eq_get hl]; exact ⟨_, rfl⟩
      rw [if_pos rfl, hr]
      simp [hl]
    · rw [if_pos rfl, List.get?_eq_none.2 (le_of_not_lt hl)]
      simp [hl]
  · rw [if_neg hk]
    simp [hk]

theorem flagAt_true_lt (rows : List Row) (k : Nat) (h : flagAt rows k = true) :
    k < rows.length := by
  by_contra hk
  rw [flagAt, List.get?_eq_none.2 (le_of_not_lt hk)] at h
  simp at h

theorem findFrom_some {flag : Nat → Bool} {k fuel j : Nat}
    (h : findFrom flag k fuel = some j) :
    k ≤ j ∧ j < k + fuel ∧ flag j = true ∧
      ∀ x, k ≤ x → x < j → flag x = false := by
  induction fuel generalizing k with
  | zero => simp [findFrom] at h
  | succ fuel ih =>
    rw [findFrom] at h
    by_cases hk : flag k = true
    · rw [if_pos hk] at h
      obtain rfl : k = j := by simpa using h
      refine ⟨le_refl _, by omega, hk, fun x hx hxj => ?_⟩
      omega
    · rw [if_neg hk] at h
      obtain ⟨h₁, h₂, h₃, h₄⟩ := ih h
      refine ⟨by omega, by omega, h₃, fun x hx hxj => ?_⟩
      rcases Nat.eq_or_lt_of_le hx with rfl | hlt
      · simpa using hk
      · exact h₄ x hlt hxj

theorem findFrom_none {flag : Nat → Bool} {k fuel : Nat}
    (h : findFrom flag k fuel = none) :
    ∀ x, k ≤ x → x < k + fuel → flag x = false := by
  induction fuel generalizing k with
  | zero => omega
  | succ fuel ih =>
    rw [findFrom] at h
    by_cases hk : flag k = true
    · rw [if_pos hk] at h; simp at h
    · rw [if_neg hk] at h
      intro x hx hxf
      rcases Nat.eq_or_lt_of_le hx with rfl | hlt
      · simpa using hk
      · exact ih h x hlt (by omega)

theorem mem_insertBefore (body : List Nat) (x ref y : Nat) :
    y ∈ insertBefore body x ref ↔ y = x ∨ y ∈ body := by
  induction body with
  | nil => simp [insertBefore]
  | cons b rest ih =>
    by_cases hb : b = ref
    · simp [insertBefore, hb]
    · simp only [insertBefore, if_neg hb, List.mem_cons, ih]
      tauto

theorem sorted_insertBefore (body : List Nat) (x ref : Nat)
    (hs : List.Sorted (· < ·) body) (href : ref ∈ body) (hx : x < ref)
    (hall : ∀ z ∈ body, z < x ∨ ref ≤ z) :
    List.Sorted (· < ·) (insertBefore body x ref) := by
  induction body with
  | nil => cases href
  | cons b rest ih =>
    rw [List.sorted_cons] at hs
    by_cases hb : b = ref
    · subst hb
      rw [insertBefore, if_pos rfl, List.sorted_cons]
      refine ⟨fun z hz => ?_, List.sorted_cons.2 hs⟩
      rcases List.mem_cons.1 hz with rfl | hz'
      · exact hx
      · exact lt_trans hx (hs.1 z hz')
    · have hrest : ref ∈ rest := by
        rcases List.mem_cons.1 href with h | h
        · exact absurd h.symm hb
        · exact h
      have hbx : b < x := by
        rcases hall b (List.mem_cons_self b rest) with h | h
        · exact h
        · exact absurd (hs.1 ref hrest) (not_lt.2 h)
      rw [insertBefore, if_neg hb, List.sorted_cons]
      refine ⟨fun z hz => ?_, ih hs.2 hrest (fun z hz => hall z (List.mem_cons_of_mem b hz))⟩
      rcases (mem_insertBefore rest x ref z).1 hz with rfl | hz'
      · exact hbx
      · exact hs.1 z hz'

theorem rowMatchesFilters_iff (ds : List Dropdown) (cells : List String) :
    rowMatchesFilters ds cells = true ↔ matchesSpec ds cells := by
  induction ds generalizing cells with
  | nil =>
    constructor
    · intro _ c v hv
      rw [List.get?_nil] at hv
      simp at hv
    · intro _
      rfl
  | cons d ds ih =>
    have split : matchesSpec (d :: ds) cells ↔
        (∀ v, selValue d = some v → cells.get? 0 = some v) ∧
          matchesSpec ds cells.tail := by
      constructor
      · intro h
        refine ⟨fun v hv => h 0 v (by simpa using hv), fun c v hv => ?_⟩
        have h2 := h (c + 1) v (by simpa using hv)
        cases cells with
        | nil => simpa using h2
        | cons y ys => simpa using h2
      · rintro ⟨h0, hs⟩ c v hv
        cases c with
        | zero => exact h0 v (by simpa using hv)
        | succ c =>
          have h2 := hs c v (by simpa using hv)
          cases cells with
          | nil => simpa using h2
          | cons y ys => simpa using h2
    rw [split]
    cases cells with
    | nil =>
      cases hsel : selValue d with
      | none =>
        have hrm : rowMatchesFilters (d :: ds) [] = rowMatchesFilters ds [] := by
          simp [rowMatchesFilters, hsel]
        rw [hrm, ih, List.tail_nil]
        constructor
        · intro h
          refine ⟨fun v hv => ?_, h⟩
          cases hv
        · exact And.right
      | some v₀ =>
        have hrm : rowMatchesFilters (d :: ds) [] = false := by
          simp [rowMatchesFilters, hsel]
        rw [hrm]
        constructor
        · intro h; cases h
        · rintro ⟨h0, _⟩
          have h2 := h0 v₀ rfl
          rw [List.get?_nil] at h2
          cases h2
    | cons x xs =>
      cases hsel : selValue d with
      | none =>
        have hrm : rowMatchesFilters (d :: ds) (x :: xs) = rowMatchesFilters ds xs := by
          simp [rowMatchesFilters, hsel]
        rw [hrm, ih, List.tail_cons]
        constructor
        · intro h
          refine ⟨fun v hv => ?_, h⟩
          cases hv
        · exact And.right
      | some v₀ =>
        by_cases hx : x = v₀
        · have hrm : rowMatchesFilters (d :: ds) (x :: xs) = rowMatchesFilters ds xs := by
            simp [rowMatchesFilters, hsel, hx]
          rw [hrm, ih, List.tail_cons]
          constructor
          · intro h
            refine ⟨fun v hv => ?_, h⟩
            cases hv
            simp [hx]
          · exact And.right
        · have hrm : rowMatchesFilters (d :: ds) (x :: xs) = false := by
            simp [rowMatchesFilters, hsel, hx]
          rw [hrm]
          constructor
          · intro h; cases h
          · rintro ⟨h0, _⟩
            have h2 := h0 v₀ rfl
            simp only [List.get?_cons_zero, Option.some.injEq] at h2
            exact absurd h2 hx

theorem length_applyMatches (ds : List Dropdown) (rows : List Row) :
    (applyMatches ds rows).length = rows.length := by
  simp [applyMatches]

theorem get?_applyMatches (ds : List Dropdown) (rows : List Row) (i : Nat) :
    (applyMatches ds rows).get? i =
      (rows.get? i).map (fun r => { r with visible := rowMatchesFilters ds r.cellData }) := by
  simp [applyMatches, List.get?_map]

/-! ### Characterization of the `filterData` pass

The loop processes row positions in increasing order; after the first `k`
iterations the flags of positions `< k` are the fresh match results while the
flags of positions `≥ k` are still the pre-pass ones. -/

theorem pass_rows (ds : List Dropdown) (n : Nat) (rows₀ : List Row)
    (body₀ : List Nat) (hWF : RowsWF n rows₀) :
    ∀ k, k ≤ n → ∀ i,
      ((List.range k).foldl (filterStep ds n) (rows₀, body₀)).1.get? i =
        (rows₀.get? i).map (fun r =>
          if i < k then { r with visible := rowMatchesFilters ds r.cellData }
          else r) := by
  intro k
  induction k with
  | zero =>
    intro _ i
    simp only [List.range_zero, List.foldl_nil]
    cases h : rows₀.get? i with
    | none => rfl
    | some r =>
      simp only [Option.map_some']
      rw [if_neg (by omega)]
  | succ k ih =>
    intro hk i
    have hkn : k ≤ n := by omega
    rw [List.range_succ, List.foldl_append]
    set s := (List.range k).foldl (filterStep ds n) (rows₀, body₀) with hs
    simp only [List.foldl_cons, List.foldl_nil]
    have hklt : k < rows₀.length := by rw [hWF.1]; omega
    obtain ⟨r₀, hr₀⟩ : ∃ r, rows₀.get? k = some r := by
      rw [List.get?_eq_get hklt]; exact ⟨_, rfl⟩
    have hsk : s.1.get? k = some r₀ := by
      rw [ih hkn k, hr₀]
      simp
    have hidx : r₀.index = k := hWF.2 k r₀ hr₀
    have hred : filterStep ds n s k =
        if rowMatchesFilters ds r₀.cellData then showRow n s.1 s.2 r₀
        else hideRow s.1 s.2 r₀ := by
      unfold filterStep
      rw [hsk]
    rw [hred]
    by_cases hm : rowMatchesFilters ds r₀.cellData = true
    · rw [if_pos hm]
      unfold showRow
      by_cases hv : r₀.visible = true
      · rw [if_pos hv, ih hkn i]
        by_cases hik : i = k
        · subst hik
          rw [hr₀]
          simp only [Option.map_some']
          cases r₀ with
          | mk idx cd vis => simp_all [lt_self_iff_false, Nat.lt_succ_self i]
        · cases hri : rows₀.get? i with
          | none => simp
          | some r =>
            simp only [Option.map_some']
            congr 1
            by_cases hik' : i < k
            · rw [if_pos hik', if_pos (by omega)]
            · rw [if_neg hik', if_neg (by omega)]
      · rw [if_neg hv]
        have hfst : (updateVisible s.1 r₀.index true,
            match findNextVisible s.1 n r₀.index with
            | some j => insertBefore s.2 r₀.index j
            | none => s.2 ++ [r₀.index]).1 = updateVisible s.1 r₀.index true := rfl
        rw [hfst, hidx, get?_updateVisible, ih hkn i]
        by_cases hik : i = k
        · subst hik
          rw [if_pos rfl, hr₀]
          simp only [Option.map_some']
          cases r₀ with
          | mk idx cd vis => simp_all [lt_self_iff_false, Nat.lt_succ_self i]
        · rw [if_neg hik]
          cases hri : rows₀.get? i with
          | none => simp
          | some r =>
            simp only [Option.map_some']
            congr 1
            by_cases hik' : i < k
            · rw [if_pos hik', if_pos (by omega)]
            · rw [if_neg hik', if_neg (by omega)]
    · rw [if_neg hm]
      have hm' : rowMatchesFilters ds r₀.cellData = false := by
        simpa using hm
      unfold hideRow
      by_cases hv : r₀.visible = true
      · rw [if_pos hv]
        have hfst : ((updateVisible s.1 r₀.index false, s.2.erase r₀.index)).1 =
            updateVisible s.1 r₀.index false := rfl
        rw [hfst, hidx, get?_updateVisible, ih hkn i]
        by_cases hik : i = k
        · subst hik
          rw [if_pos rfl, hr₀]
          simp only [Option.map_some']
          cases r₀ with
          | mk idx cd vis => simp_all [lt_self_iff_false, Nat.lt_succ_self i]
        · rw [if_neg hik]
          cases hri : rows₀.get? i with
          | none => simp
          | some r =>
            simp only [Option.map_some']
            congr 1
            by_cases hik' : i < k
            · rw [if_pos hik', if_pos (by omega)]
            · rw [if_neg hik', if_neg (by omega)]
      · rw [if_neg hv, ih hkn i]
        by_cases hik : i = k
        · subst hik
          rw [hr₀]
          simp only [Option.map_some']
          cases r₀ with
          | mk idx cd vis => simp_all [lt_self_iff_false, Nat.lt_succ_self i]
        · cases hri : rows₀.get? i with
          | none => simp
          | some r =>
            simp only [Option.map_some']
            congr 1
            by_cases hik' : i < k
            · rw [if_pos hik', if_pos (by omega)]
            · rw [if_neg hik', if_neg (by omega)]

theorem length_filterStep_fst (ds : List Dropdown) (n : Nat)
    (s : List Row × List Nat) (i : Nat) :
    (filterStep ds n s i).1.length = s.1.length := by
  unfold filterStep
  cases h : s.1.get? i with
  | none => rfl
  | some row =>
    show (if rowMatchesFilters ds row.cellData then showRow n s.1 s.2 row
        else hideRow s.1 s.2 row).1.length = s.1.length
    by_cases hm : rowMatchesFilters ds row.cellData = true
    · rw [if_pos hm]
      unfold showRow
      by_cases hv : row.visible = true
      · rw [if_pos hv]
      · rw [if_neg hv]
        exact length_updateVisible _ _ _
    · rw [if_neg hm]
      unfold hideRow
      by_cases hv : row.visible = true
      · rw [if_pos hv]
        exact length_updateVisible _ _ _
      · rw [if_neg hv]

theorem length_foldl_filterStep (ds : List Dropdown) (n : Nat) :
    ∀ (l : List Nat) (s : List Row × List Nat),
      (l.foldl (filterStep ds n) s).1.length = s.1.length := by
  intro l
  induction l with
  | nil => intro s; rfl
  | cons a l ih =>
    intro s
    rw [List.foldl_cons, ih (filterStep ds n s a), length_filterStep_fst]

theorem pass_body (ds : List Dropdown) (n : Nat) (rows₀ : List Row)
    (body₀ : List Nat) (hWF : RowsWF n rows₀) (hInv : BodyInv rows₀ body₀) :
    ∀ k, k ≤ n →
      BodyInv ((List.range k).foldl (filterStep ds n) (rows₀, body₀)).1
        ((List.range k).foldl (filterStep ds n) (rows₀, body₀)).2 := by
  intro k
  induction k with
  | zero =>
    intro _
    simpa only [List.range_zero, List.foldl_nil] using hInv
  | succ k ih =>
    intro hk
    have hkn : k ≤ n := by omega
    have hInvk := ih hkn
    rw [List.range_succ, List.foldl_append]
    set s := (List.range k).foldl (filterStep ds n) (rows₀, body₀) with hs
    simp only [List.foldl_cons, List.foldl_nil]
    have hklt : k < rows₀.length := by rw [hWF.1]; omega
    obtain ⟨r₀, hr₀⟩ : ∃ r, rows₀.get? k = some r := by
      rw [List.get?_eq_get hklt]; exact ⟨_, rfl⟩
    have hsk : s.1.get? k = some r₀ := by
      rw [pass_rows ds n rows₀ body₀ hWF k hkn k, hr₀]
      simp
    have hidx : r₀.index = k := hWF.2 k r₀ hr₀
    have hlen : s.1.length = rows₀.length := length_foldl_filterStep ds n _ _
    have hn : s.1.length = n := by rw [hlen, hWF.1]
    have hkslt : k < s.1.length := by omega
    have hred : filterStep ds n s k =
        if rowMatchesFilters ds r₀.cellData then showRow n s.1 s.2 r₀
        else hideRow s.1 s.2 r₀ := by
      unfold filterStep
      rw [hsk]
    rw [hred]
    by_cases hm : rowMatchesFilters ds r₀.cellData = true
    · rw [if_pos hm]
      unfold showRow
      by_cases hv : r₀.visible = true
      · rw [if_pos hv]
        exact hInvk
      · rw [if_neg hv]
        have hflagk : flagAt s.1 k = false := by
          unfold flagAt
          rw [hsk]
          simpa using hv
        have hknotmem : k ∉ s.2 := by
          intro hmem
          have h := (hInvk.2 k).1 hmem
          rw [hflagk] at h
          cases h
        rw [hidx]
        cases hfind : findNextVisible s.1 n k with
        | some j =>
          show BodyInv (updateVisible s.1 k true) (insertBefore s.2 k j)
          unfold findNextVisible at hfind
          obtain ⟨hj1, hj2, hj3, hj4⟩ := findFrom_some hfind
          have hjn : j < n := by omega
          have hjmem : j ∈ s.2 := (hInvk.2 j).2 hj3
          have hall : ∀ z ∈ s.2, z < k ∨ j ≤ z := by
            intro z hz
            have hfz := (hInvk.2 z).1 hz
            rcases lt_trichotomy z k with h | h | h
            · exact Or.inl h
            · subst h
              rw [hfz] at hflagk
              cases hflagk
            · right
              by_contra hjz
              have := hj4 z (by omega) (by omega)
              rw [hfz] at this
              cases this
          refine ⟨sorted_insertBefore s.2 k j hInvk.1 hjmem (by omega) hall, fun x => ?_⟩
          rw [mem_insertBefore, flagAt_updateVisible]
          by_cases hx : x = k
          · subst hx
            simp [hkslt]
          · rw [if_neg (by tauto)]
            rw [hInvk.2 x]
            tauto
        | none =>
          show BodyInv (updateVisible s.1 k true) (s.2 ++ [k])
          unfold findNextVisible at hfind
          have hnone := findFrom_none hfind
          have hall : ∀ z ∈ s.2, z < k := by
            intro z hz
            have hfz := (hInvk.2 z).1 hz
            have hzlen : z < s.1.length := flagAt_true_lt s.1 z hfz
            rcases lt_trichotomy z k with h | h | h
            · exact h
            · subst h
              rw [hfz] at hflagk
              cases hflagk
            · exfalso
              have := hnone z (by omega) (by omega)
              rw [hfz] at this
              cases this
          constructor
          · rw [List.Sorted, List.pairwise_append]
            exact ⟨hInvk.1, List.pairwise_singleton _ _,
              fun a ha b hb => (List.mem_singleton.1 hb) ▸ hall a ha⟩
          · intro x
            rw [List.mem_append, List.mem_singleton, flagAt_updateVisible]
            by_cases hx : x = k
            · subst hx
              simp [hkslt]
            · rw [if_neg (by tauto)]
              rw [← hInvk.2 x]
              tauto
    · rw [if_neg hm]
      unfold hideRow
      by_cases hv : r₀.visible = true
      · rw [if_pos hv]
        have hnodup : s.2.Nodup := hInvk.1.nodup
        rw [hidx]
        show BodyInv (updateVisible s.1 k false) (s.2.erase k)
        constructor
        · exact hInvk.1.sublist (s.2.erase_sublist k)
        · intro x
          rw [hnodup.mem_erase_iff, flagAt_updateVisible]
          by_cases hx : x = k
          · subst hx
            simp [hkslt]
          · rw [if_neg (by tauto)]
            rw [← hInvk.2 x]
            tauto
      · rw [if_neg hv]
        exact hInvk

/-- The rows after a full `filterData` pass: every flag is the match result. -/
theorem filterDataRB_fst (ds : List Dropdown) (n : Nat) (rows₀ : List Row)
    (body₀ : List Nat) (hWF : RowsWF n rows₀) :
    (filterDataRB ds n rows₀ body₀).1 = applyMatches ds rows₀ := by
  rw [List.ext_get?_iff]
  intro i
  unfold filterDataRB
  rw [pass_rows ds n rows₀ body₀ hWF n (le_refl n) i, get?_applyMatches]
  cases h : rows₀.get? i with
  | none => rfl
  | some r =>
    simp only [Option.map_some']
    have hi : i < n := by
      rw [← hWF.1]
      by_contra hlt
      rw [List.get?_eq_none.2 (le_of_not_lt hlt)] at h
      cases h
    rw [if_pos hi]

/-- The body after a full `filterData` pass keeps the invariant. -/
theorem filterDataRB_bodyInv (ds : List Dropdown) (n : Nat) (rows₀ : List Row)
    (body₀ : List Nat) (hWF : RowsWF n rows₀) (hInv : BodyInv rows₀ body₀) :
    BodyInv (applyMatches ds rows₀) (filterDataRB ds n rows₀ body₀).2 := by
  rw [← filterDataRB_fst ds n rows₀ body₀ hWF]
  exact pass_body ds n rows₀ body₀ hWF hInv n (le_refl n)

/-! ### `filterData` at the state level; repopulation lemmas -/

theorem filterData_rowData (st : TableState)
    (hWF : RowsWF st.numberOfRows st.rowData) :
    (filterData st).rowData = applyMatches st.filterDropdowns st.rowData :=
  filterDataRB_fst st.filterDropdowns st.numberOfRows st.rowData st.body hWF

theorem filterData_bodyInv (st : TableState)
    (hWF : RowsWF st.numberOfRows st.rowData)
    (hInv : BodyInv st.rowData st.body) :
    BodyInv (filterData st).rowData (filterData st).body := by
  have h := filterDataRB_bodyInv st.filterDropdowns st.numberOfRows st.rowData
    st.body hWF hInv
  rwa [← filterDataRB_fst st.filterDropdowns st.numberOfRows st.rowData st.body hWF] at h

theorem rowsWF_applyMatches (ds : List Dropdown) (n : Nat) (rows : List Row)
    (h : RowsWF n rows) : RowsWF n (applyMatches ds rows) := by
  refine ⟨by rw [length_applyMatches, h.1], fun i r hr => ?_⟩
  rw [get?_applyMatches] at hr
  cases hg : rows.get? i with
  | none => rw [hg] at hr; cases hr
  | some r₀ =>
    rw [hg] at hr
    simp only [Option.map_some'] at hr
    cases hr
    exact h.2 i r₀ hg

theorem length_populateFrom (cfg : Config) (rows : List Row) :
    ∀ (c : Nat) (ds : List Dropdown),
      (populateFrom cfg rows c ds).length = ds.length := by
  intro c ds
  induction ds generalizing c with
  | nil => rfl
  | cons d t ih => simp [populateFrom, ih]

theorem get?_populateFrom (cfg : Config) (rows : List Row) :
    ∀ (ds : List Dropdown) (c k : Nat),
      (populateFrom cfg rows c ds).get? k =
        (ds.get? k).map (fun d => populateColumnFilter cfg rows d (c + k)) := by
  intro ds
  induction ds with
  | nil => intro c k; rfl
  | cons d t ih =>
    intro c k
    cases k with
    | zero => rfl
    | succ k =>
      have h1 : (populateFrom cfg rows c (d :: t)).get? (k + 1) =
          (populateFrom cfg rows (c + 1) t).get? k := rfl
      have h2 : ((d :: t).get? (k + 1)) = t.get? k := rfl
      rw [h1, h2, ih (c + 1) k]
      have h3 : c + 1 + k = c + (k + 1) := by omega
      rw [h3]

theorem selValue_populateColumnFilter (cfg : Config) (rows : List Row)
    (d : Dropdown) (c : Nat) :
    selValue (populateColumnFilter cfg rows d c) = selValue d := by
  by_cases h : d.selectedIndex = 0 <;>
    simp [populateColumnFilter, selValue, h]

theorem map_selValue_populateFrom (cfg : Config) (rows : List Row) :
    ∀ (ds : List Dropdown) (c : Nat),
      (populateFrom cfg rows c ds).map selValue = ds.map selValue := by
  intro ds
  induction ds with
  | nil => intro c; rfl
  | cons d t ih =>
    intro c
    simp [populateFrom, selValue_populateColumnFilter, ih (c + 1)]

theorem populateColumnFilter_idem (cfg : Config) (rows : List Row)
    (d : Dropdown) (c : Nat) :
    populateColumnFilter cfg rows (populateColumnFilter cfg rows d c) c =
      populateColumnFilter cfg rows d c := by
  by_cases h : d.selectedIndex = 0 <;> simp [populateColumnFilter, h]

theorem populateFrom_idem (cfg : Config) (rows : List Row) :
    ∀ (ds : List Dropdown) (c : Nat),
      populateFrom cfg rows c (populateFrom cfg rows c ds) =
        populateFrom cfg rows c ds := by
  intro ds
  induction ds with
  | nil => intro c; rfl
  | cons d t ih =>
    intro c
    simp [populateFrom, populateColumnFilter_idem, ih (c + 1)]

theorem rowMatchesFilters_congr (ds ds' : List Dropdown)
    (h : ds.map selValue = ds'.map selValue) (cells : List String) :
    rowMatchesFilters ds cells = rowMatchesFilters ds' cells := by
  induction ds generalizing ds' cells with
  | nil =>
    cases ds' with
    | nil => rfl
    | cons d' t' => simp at h
  | cons d t ih =>
    cases ds' with
    | nil => simp at h
    | cons d' t' =>
      simp only [List.map_cons, List.cons.injEq] at h
      obtain ⟨h1, h2⟩ := h
      cases cells with
      | nil =>
        have e1 : rowMatchesFilters (d :: t) [] =
            (match selValue d with
             | some _ => false
             | none => rowMatchesFilters t []) := rfl
        have e2 : rowMatchesFilters (d' :: t') [] =
            (match selValue d' with
             | some _ => false
             | none => rowMatchesFilters t' []) := rfl
        rw [e1, e2, h1]
        cases selValue d' with
        | some v => rfl
        | none => exact ih t' h2 []
      | cons x xs =>
        have e1 : rowMatchesFilters (d :: t) (x :: xs) =
            (match selValue d with
             | some v => if x = v then rowMatchesFilters t xs else false
             | none => rowMatchesFilters t xs) := rfl
        have e2 : rowMatchesFilters (d' :: t') (x :: xs) =
            (match selValue d' with
             | some v => if x = v then rowMatchesFilters t' xs else false
             | none => rowMatchesFilters t' xs) := rfl
        rw [e1, e2, h1]
        cases selValue d' with
        | some v =>
          show (if x = v then rowMatchesFilters t xs else false) =
            (if x = v then rowMatchesFilters t' xs else false)
          by_cases hx : x = v
          · rw [if_pos hx, if_pos hx, ih t' h2 xs]
          · rw [if_neg hx, if_neg hx]
        | none => exact ih t' h2 xs

/-! ### `filterData` as a fixpoint when the flags already match -/

theorem filterStep_fixed (ds : List Dropdown) (n : Nat) (rows : List Row)
    (body : List Nat) (i : Nat) (r : Row) (hr : rows.get? i = some r)
    (hfl : r.visible = rowMatchesFilters ds r.cellData) :
    filterStep ds n (rows, body) i = (rows, body) := by
  unfold filterStep
  simp only [hr]
  by_cases hm : rowMatchesFilters ds r.cellData = true
  · rw [if_pos hm]
    unfold showRow
    rw [if_pos (hfl.trans hm)]
  · have hm' : rowMatchesFilters ds r.cellData = false := by simpa using hm
    rw [if_neg hm]
    unfold hideRow
    rw [if_neg (by rw [hfl, hm']; simp)]

theorem foldl_filterStep_fixed (ds : List Dropdown) (n : Nat)
    (rows : List Row) (body : List Nat) (l : List Nat)
    (h : ∀ i ∈ l, filterStep ds n (rows, body) i = (rows, body)) :
    l.foldl (filterStep ds n) (rows, body) = (rows, body) := by
  induction l with
  | nil => rfl
  | cons a t ih =>
    rw [List.foldl_cons, h a (List.mem_cons_self a t),
      ih (fun i hi => h i (List.mem_cons_of_mem a hi))]

theorem filterDataRB_fixed (ds : List Dropdown) (n : Nat) (rows : List Row)
    (body : List Nat) (hlen : rows.length = n)
    (hfl : ∀ i r, rows.get? i = some r →
      r.visible = rowMatchesFilters ds r.cellData) :
    filterDataRB ds n rows body = (rows, body) := by
  unfold filterDataRB
  apply foldl_filterStep_fixed
  intro i hi
  have hi' : i < n := List.mem_range.1 hi
  obtain ⟨r, hr⟩ : ∃ r, rows.get? i = some r := by
    rw [List.get?_eq_get (by omega)]
    exact ⟨_, rfl⟩
  exact filterStep_fixed ds n rows body i r hr (hfl i r hr)

/-! ### Reachable-state invariants -/

/-- The structural invariant every reachable widget state satisfies. -/
def StateWF (st : TableState) : Prop :=
  RowsWF st.numberOfRows st.rowData ∧ BodyInv st.rowData st.body

theorem stateWF_filterData (st : TableState) (h : StateWF st) :
    StateWF (filterData st) := by
  constructor
  · have h1 := rowsWF_applyMatches st.filterDropdowns st.numberOfRows st.rowData h.1
    rwa [← filterData_rowData st h.1] at h1
  · exact filterData_bodyInv st h.1 h.2

theorem stateWF_changeEvent (st : TableState) (c k : Nat) (h : StateWF st) :
    StateWF (changeEvent st c k) := by
  have h1 : StateWF (selectOption st c k) := h
  exact stateWF_filterData (selectOption st c k) h1

theorem stateWF_applyEvents (events : List (Nat × Nat)) :
    ∀ (st : TableState), StateWF st → StateWF (applyEvents st events) := by
  induction events with
  | nil => intro st h; exact h
  | cons e t ih =>
    intro st h
    exact ih (changeEvent st e.1 e.2) (stateWF_changeEvent st e.1 e.2 h)

/-! ### Characterizing a successful initialization -/

theorem buildCellList_ok (norm : String → String) (cells : List String) :
    ∀ (idxs : List Nat) (cd : List String),
      buildCellList norm cells idxs = Except.ok cd →
      cd.length = idxs.length ∧
      ∀ k c, idxs.get? k = some c →
        ∃ s, cells.get? c = some s ∧ cd.get? k = some (norm s) := by
  intro idxs
  induction idxs with
  | nil =>
    intro cd h
    cases h
    exact ⟨rfl, fun k c hk => by simp at hk⟩
  | cons c cs ih =>
    intro cd h
    simp only [buildCellList] at h
    cases hc : cells.get? c with
    | none => rw [hc] at h; cases h
    | some s =>
      rw [hc] at h
      cases hrec : buildCellList norm cells cs with
      | error e => rw [hrec] at h; cases h
      | ok rest =>
        rw [hrec] at h
        cases h
        obtain ⟨ih1, ih2⟩ := ih rest hrec
        refine ⟨by simp [ih1], fun k c' hk => ?_⟩
        cases k with
        | zero =>
          cases hk
          exact ⟨s, hc, rfl⟩
        | succ k => exact ih2 k c' hk

theorem buildRowDataAux_ok (norm : String → String) (nf : Nat) :
    ∀ (rowsIn : List (List String)) (start : Nat) (rows : List Row),
      buildRowDataAux norm nf start rowsIn = Except.ok rows →
      rows.length = rowsIn.length ∧
      ∀ i r, rows.get? i = some r →
        r.index = start + i ∧ r.visible = true ∧
        ∃ cells, rowsIn.get? i = some cells ∧
          buildCellData norm nf cells = Except.ok r.cellData := by
  intro rowsIn
  induction rowsIn with
  | nil =>
    intro start rows h
    cases h
    exact ⟨rfl, fun i r hr => by simp at hr⟩
  | cons cells rest ih =>
    intro start rows h
    simp only [buildRowDataAux] at h
    cases hcd : buildCellData norm nf cells with
    | error e => rw [hcd] at h; cases h
    | ok cd =>
      rw [hcd] at h
      cases hrec : buildRowDataAux norm nf (start + 1) rest with
      | error e => rw [hrec] at h; cases h
      | ok rs =>
        rw [hrec] at h
        cases h
        obtain ⟨ih1, ih2⟩ := ih (start + 1) rs hrec
        refine ⟨by simp [ih1], fun i r hr => ?_⟩
        cases i with
        | zero =>
          cases hr
          exact ⟨by simp, rfl, cells, rfl, hcd⟩
        | succ i =>
          obtain ⟨hidx2, hvis, cells', hcells', hcd'⟩ := ih2 i r hr
          exact ⟨by omega, hvis, cells', hcells', hcd'⟩

/-- What a successful `TableFilterAttach` produces: the selector resolved to a
`table`, the snapshot build succeeded, and the state is the initialized one
(fresh dropdowns populated from the all-visible snapshot, full body). -/
theorem attach_attached_spec (t : DomTable) (opts : Option UserOptions)
    (st0 : TableState)
    (h : TableFilterAttach (some t) opts = AttachResult.attached st0) :
    ∃ rd, buildRowData
        (computeNumberOfColumns (parseConfig opts).numberOfColumns
          (t.thead.getD 0)) (t.tbody.getD []) = Except.ok rd ∧
      st0 = { config := parseConfig opts
              numberOfFilteredColumns :=
                computeNumberOfColumns (parseConfig opts).numberOfColumns
                  (t.thead.getD 0)
              numberOfRows := (t.tbody.getD []).length
              rowData := rd
              filterDropdowns := populateColumnFilters (parseConfig opts) rd
                (List.replicate
                  (computeNumberOfColumns (parseConfig opts).numberOfColumns
                    (t.thead.getD 0)) (Dropdown.mk [] 0))
              body := List.range (t.tbody.getD []).length } := by
  simp only [TableFilterAttach] at h
  by_cases hname : toLowerCase t.nodeName = "table"
  · rw [if_pos hname] at h
    cases htI : tableInit t opts with
    | error e =>
      rw [htI] at h
      simp at h
    | ok st1 =>
      rw [htI] at h
      have h2 : (match createFiltersE t.thead.isSome st1.config
          st1.numberOfFilteredColumns st1.rowData with
        | Except.error e => AttachResult.thrown e
        | Except.ok ds =>
            AttachResult.attached { st1 with filterDropdowns := ds }) =
          AttachResult.attached st0 := h
      simp only [tableInit] at htI
      cases hbd : buildRowData
          (computeNumberOfColumns (parseConfig opts).numberOfColumns
            (t.thead.getD 0)) (t.tbody.getD []) with
      | error e =>
        rw [hbd] at htI
        simp [Except.map] at htI
      | ok rd =>
        rw [hbd] at htI
        have htI2 : (Except.ok
            { config := parseConfig opts
              numberOfFilteredColumns :=
                computeNumberOfColumns (parseConfig opts).numberOfColumns
                  (t.thead.getD 0)
              numberOfRows := (t.tbody.getD []).length
              rowData := rd
              filterDropdowns := []
              body := List.range (t.tbody.getD []).length } :
            Except JsError TableState) = Except.ok st1 := htI
        cases htI2
        cases hcf : createFiltersE t.thead.isSome (parseConfig opts)
            (computeNumberOfColumns (parseConfig opts).numberOfColumns
              (t.thead.getD 0)) rd with
        | error e =>
          rw [hcf] at h2
          simp at h2
        | ok ds =>
          rw [hcf] at h2
          have h3 : AttachResult.attached
              { config := parseConfig opts
                numberOfFilteredColumns :=
                  computeNumberOfColumns (parseConfig opts).numberOfColumns
                    (t.thead.getD 0)
                numberOfRows := (t.tbody.getD []).length
                rowData := rd
                filterDropdowns := ds
                body := List.range (t.tbody.getD []).length } =
              AttachResult.attached st0 := h2
          cases h3
          unfold createFiltersE at hcf
          by_cases hth : t.thead.isSome = true
          · rw [if_pos hth] at hcf
            cases hcf
            exact ⟨rd, rfl, rfl⟩
          · rw [if_neg hth] at hcf
            cases hcf
  · rw [if_neg hname] at h
    cases h

theorem attach_stateWF (t : DomTable) (opts : Option UserOptions)
    (st0 : TableState)
    (h : TableFilterAttach (some t) opts = AttachResult.attached st0) :
    StateWF st0 ∧ ∀ i r, st0.rowData.get? i = some r → r.visible = true := by
  obtain ⟨rd, hbd, rfl⟩ := attach_attached_spec t opts st0 h
  obtain ⟨hlen, hrows⟩ := buildRowDataAux_ok id
    (computeNumberOfColumns (parseConfig opts).numberOfColumns (t.thead.getD 0))
    (t.tbody.getD []) 0 rd hbd
  refine ⟨⟨⟨by simpa using hlen, fun i r hr => ?_⟩, ?_, ?_⟩,
    fun i r hr => (hrows i r hr).2.1⟩
  · have h1 := (hrows i r hr).1
    omega
  · exact List.sorted_lt_range _
  · intro x
    constructor
    · intro hx
      have hxN : x < (t.tbody.getD []).length := List.mem_range.1 hx
      have hxrd : x < rd.length := by omega
      obtain ⟨r, hr⟩ : ∃ r, rd.get? x = some r := ⟨rd.get ⟨x, hxrd⟩, List.get?_eq_get hxrd⟩
      unfold flagAt
      rw [hr]
      simp [(hrows x r hr).2.1]
    · intro hx
      have h2 := flagAt_true_lt rd x hx
      exact List.mem_range.2 (by omega)

/-! ### The claims -/

/-- **C2** (confirmed): after the visibility recomputation (`filterData`), a
row's `visible` flag is `true` iff for every filtered column whose dropdown
has a non-default selection, the row's snapshot cell value equals the selected
value (`matchesSpec`, the spec's P1 predicate); columns at the default
selection impose no constraint, and with no non-default selections every row
is visible. -/
theorem spec_C2_visibility (st : TableState)
    (hWF : RowsWF st.numberOfRows st.rowData) :
    ∀ i r, (filterData st).rowData.get? i = some r →
      (r.visible = true ↔ matchesSpec st.filterDropdowns r.cellData) ∧
      ((∀ c, (st.filterDropdowns.get? c).bind selValue = none) →
        r.visible = true) := by
  intro i r hr
  rw [filterData_rowData st hWF, get?_applyMatches] at hr
  cases hg : st.rowData.get? i with
  | none => rw [hg] at hr; cases hr
  | some r₀ =>
    rw [hg] at hr
    simp only [Option.map_some'] at hr
    cases hr
    constructor
    · exact rowMatchesFilters_iff st.filterDropdowns r₀.cellData
    · intro hnone
      refine (rowMatchesFilters_iff st.filterDropdowns r₀.cellData).2 ?_
      intro c v hv
      rw [hnone c] at hv
      cases hv

/-- Concrete instance of C2: one row `["a"]`, one dropdown with the default
selection; after `filterData` the row is visible and the spec predicate holds. -/
theorem spec_C2_visibility_witness :
    (Row.mk 0 ["a"] true).visible = true ↔
      matchesSpec [Dropdown.mk ["", "a"] 0] ["a"] :=
  (spec_C2_visibility
    (TableState.mk (Config.mk "" true (-1)) 1 1 [Row.mk 0 ["a"] true]
      [Dropdown.mk ["", "a"] 0] [0])
    ⟨rfl, by
      intro i r hr
      cases i with
      | zero => cases hr; rfl
      | succ i => cases hr⟩
    0 (Row.mk 0 ["a"] true) (by decide)).1

/-- **C3** (confirmed): starting from a successfully attached widget, after any
sequence of selection-change cycles the materialized rows appear in strictly
increasing original-index order, and the materialized set is exactly the set
of visible rows. The "insert before the lowest-index visible row with greater
index, else append" behaviour is `showRow` itself, whose preservation of the
order invariant is what this theorem proves. -/
theorem spec_C3_order (t : DomTable) (opts : Option UserOptions)
    (st0 : TableState) (events : List (Nat × Nat))
    (h : TableFilterAttach (some t) opts = AttachResult.attached st0) :
    List.Sorted (· < ·) (applyEvents st0 events).body ∧
    ∀ x, x ∈ (applyEvents st0 events).body ↔
      flagAt (applyEvents st0 events).rowData x = true := by
  have hwf : StateWF st0 := (attach_stateWF t opts st0 h).1
  have h2 : StateWF (applyEvents st0 events) := stateWF_applyEvents events st0 hwf
  exact ⟨h2.2.1, h2.2.2⟩

/-- Concrete instance of C3: a 1-column, 2-row table; after selecting "a"
(option 1) the materialized body is `[1]`, strictly increasing. -/
theorem spec_C3_order_witness :
    List.Sorted (· < ·)
      (applyEvents
        (TableState.mk (Config.mk "" true (-1)) 1 2
          [Row.mk 0 ["b"] true, Row.mk 1 ["a"] true]
          [Dropdown.mk ["", "a", "b"] 0] [0, 1]) [(0, 1)]).body :=
  (spec_C3_order (DomTable.mk "table" (some 1) (some [["b"], ["a"]])) none
    (TableState.mk (Config.mk "" true (-1)) 1 2
      [Row.mk 0 ["b"] true, Row.mk 1 ["a"] true]
      [Dropdown.mk ["", "a", "b"] 0] [0, 1]) [(0, 1)] (by decide)).1

/-! ### The computable string comparison agrees with the lexicographic order -/

theorem charsLe_iff_not_lex :
    ∀ xs ys : List Char, charsLe xs ys = true ↔ ¬ List.Lex (· < ·) ys xs := by
  intro xs
  induction xs with
  | nil =>
    intro ys
    simp only [charsLe]
    constructor
    · intro _ h
      cases h
    · intro _
      trivial
  | cons a as ih =>
    intro ys
    cases ys with
    | nil =>
      simp only [charsLe]
      constructor
      · intro h
        cases h
      · intro h
        exact (h List.Lex.nil).elim
    | cons b bs =>
      by_cases hab : a = b
      · subst hab
        rw [charsLe, if_pos rfl, ih bs]
        constructor
        · intro h hl
          exact h (List.Lex.cons_iff.1 hl)
        · intro h hl
          exact h (List.Lex.cons hl)
      · rw [charsLe, if_neg hab]
        rcases lt_trichotomy a b with hlt | heq | hgt
        · constructor
          · intro _ hl
            cases hl with
            | cons h' => exact hab rfl
            | rel h' => exact absurd h' (asymm hlt)
          · intro _
            simp [hlt]
        · exact absurd heq hab
        · constructor
          · intro h
            rw [decide_eq_true_eq] at h
            exact absurd h (asymm hgt)
          · intro h
            exact (h (List.Lex.rel hgt)).elim

theorem jsLeProp_iff_le (a b : String) : jsLeProp a b ↔ a ≤ b := by
  rw [← not_lt, jsLeProp, jsStringLe, String.lt_iff_toList_lt]
  exact charsLe_iff_not_lex a.data b.data

instance : IsTrans String jsLeProp :=
  ⟨fun a b c hab hbc => (jsLeProp_iff_le a c).2
    (le_trans ((jsLeProp_iff_le a b).1 hab) ((jsLeProp_iff_le b c).1 hbc))⟩

instance : IsTotal String jsLeProp :=
  ⟨fun a b => (le_total a b).imp (jsLeProp_iff_le a b).2 (jsLeProp_iff_le b a).2⟩

theorem sorted_jsLeProp_iff (l : List String) :
    List.Sorted jsLeProp l ↔ List.Sorted (· ≤ ·) l := by
  constructor
  · intro h
    exact h.imp (fun hab => (jsLeProp_iff_le _ _).1 hab)
  · intro h
    exact h.imp (fun hab => (jsLeProp_iff_le _ _).2 hab)

/-- With zero filtered columns the snapshot build always succeeds (the inner
cell loop runs zero times). -/
theorem buildRowDataAux_zero (norm : String → String) :
    ∀ (rowsIn : List (List String)) (start : Nat),
      ∃ rows, buildRowDataAux norm 0 start rowsIn = Except.ok rows := by
  intro rowsIn
  induction rowsIn with
  | nil => intro start; exact ⟨[], rfl⟩
  | cons cells rest ih =>
    intro start
    obtain ⟨rows', hr'⟩ := ih (start + 1)
    refine ⟨⟨start, [], true⟩ :: rows', ?_⟩
    simp only [buildRowDataAux]
    have hcd : buildCellData norm 0 cells = Except.ok [] := rfl
    rw [hcd, hr']

/-- **C8** (corrected, counterexample): the spec formula
`max(0, min(requestedColumnCount, totalColumns))` gives `0` for the request
`-2` on a 3-column table, but the code treats every request `≤ -1` like `-1`
(no slice) and filters all 3 columns. -/
theorem spec_C8_counterexample :
    computeNumberOfColumns (-2) 3 = 3 ∧ specNumberOfColumns (-2) 3 = 0 ∧
      computeNumberOfColumns (-2) 3 ≠ specNumberOfColumns (-2) 3 := by
  refine ⟨by decide, by decide, by decide⟩

/-- **C8** (amended): `numberOfFilteredColumns` equals
`min(requestedColumnCount, totalColumns)` when the request is `≥ 0`, and
equals `totalColumns` when the request is `≤ -1` (not only `-1`) or exceeds
the total; both source variants compute the same function. -/
theorem spec_C8_amended (req : Int) (total : Nat) :
    (0 ≤ req → computeNumberOfColumns req total = min req.toNat total) ∧
    (req ≤ -1 → computeNumberOfColumns req total = total) ∧
    ((total : Int) < req → computeNumberOfColumns req total = total) ∧
    computeNumberOfColumnsDoc req total = computeNumberOfColumns req total := by
  refine ⟨?_, ?_, ?_, ?_⟩
  · intro h
    rw [computeNumberOfColumns, if_pos (by omega)]
  · intro h
    rw [computeNumberOfColumns, if_neg (by omega)]
  · intro h
    rw [computeNumberOfColumns]
    by_cases h2 : req > -1
    · rw [if_pos h2]
      omega
    · rw [if_neg h2]
  · unfold computeNumberOfColumns computeNumberOfColumnsDoc
    by_cases h1 : req > -1
    · by_cases h2 : req ≤ (total : Int)
      · rw [if_pos ⟨h1, h2⟩, if_pos h1]
        omega
      · rw [if_neg (by tauto), if_pos h1]
        omega
    · rw [if_neg (by tauto), if_neg h1]

/-- Concrete instance of the amended C8 at request `2`, total `5`. -/
theorem spec_C8_amended_witness :
    (0 : Int) ≤ 2 ∧ computeNumberOfColumns 2 5 = min (Int.toNat 2) 5 :=
  ⟨by decide, (spec_C8_amended 2 5).1 (by decide)⟩

/-- **C10** (confirmed): when the selector resolves to a `table` with no
`thead` child, `findChild` substitutes `emptyElement` (which has only
`querySelector`/`querySelectorAll`); the constructor succeeds with zero
header cells, and `createFilters` then calls `appendChild` on the
placeholder, so a `TypeError` escapes the public entry point even though
selector resolution succeeded. -/
theorem spec_C10_no_thead (tb : Option (List (List String)))
    (opts : Option UserOptions) :
    TableFilterAttach (some (DomTable.mk "table" none tb)) opts =
      AttachResult.thrown JsError.typeError := by
  obtain ⟨rows, hrows⟩ := buildRowDataAux_zero id (tb.getD []) 0
  have hnf : computeNumberOfColumns (parseConfig opts).numberOfColumns 0 = 0 := by
    unfold computeNumberOfColumns
    by_cases h : (parseConfig opts).numberOfColumns > -1
    · rw [if_pos h]
      simp
    · rw [if_neg h]
  simp only [TableFilterAttach, tableInit, createFiltersE, buildRowData,
    Option.getD_none, Option.isSome_none]
  rw [if_pos (show toLowerCase "table" = "table" by decide), hnf, hrows]
  rfl

/-- **C5** (code_bug): on a table with 2 filtered columns and a body row with
only 1 cell, `buildRowData` reads `dataCellElements[1]`, which is `undefined`,
and the `.innerHTML` access throws a `TypeError` that escapes `TableFilter`
uncaught: there is no explicit detection, the error carries no row position,
and the exception propagates past the public entry point, contrary to the
spec's MalformedRowError requirement. (No filter markup is created, since the
constructor throws before `createFilters`.) -/
theorem spec_C5_malformed_row :
    TableFilterAttach (some (DomTable.mk "table" (some 2) (some [["x"]]))) none =
      AttachResult.thrown JsError.typeError ∧
    buildRowData 2 [["x"]] = Except.error JsError.typeError := by
  refine ⟨by decide, by rfl⟩

/-- **C7** (corrected, counterexample): the documented variant's normalization
`replace(/\s/g, ' ')` turns the cell text `"a\n\nb"` into `"a  b"` (two
spaces), not `"a b"` as run-collapsing would; the `src/table-filter.js`
variant stores the raw `innerHTML` with no normalization at all. -/
theorem spec_C7_counterexample :
    buildRowDataDoc 1 [["a\n\nb"]] = Except.ok [Row.mk 0 ["a  b"] true] ∧
    buildRowData 1 [["a\n\nb"]] = Except.ok [Row.mk 0 ["a\n\nb"] true] ∧
    specCollapseWs "a\n\nb" = "a b" ∧
    ("a  b" : String) ≠ "a b" := by
  refine ⟨by rfl, by rfl, by decide, by decide⟩

/-- **C7** (amended): in the documented variant every snapshot cell value is
the cell's text with each whitespace character individually replaced by a
space — character count preserved, runs not collapsed (and in
`src/table-filter.js` the raw text is stored unchanged). -/
theorem spec_C7_amended (nf : Nat) (rowsIn : List (List String))
    (rd : List Row) (hbd : buildRowDataDoc nf rowsIn = Except.ok rd) :
    ∀ i r, rd.get? i = some r → ∀ c v, r.cellData.get? c = some v →
      ∃ cell, (rowsIn.get? i).bind (fun cs => cs.get? c) = some cell ∧
        v.data = cell.data.map
          (fun ch => if isJsWhitespace ch then ' ' else ch) := by
  intro i r hr c v hv
  obtain ⟨hlen, hrows⟩ := buildRowDataAux_ok normalizeCellText nf rowsIn 0 rd hbd
  obtain ⟨_, _, cells, hcells, hcd⟩ := hrows i r hr
  obtain ⟨hcdlen, hcdget⟩ := buildCellList_ok normalizeCellText cells
    (List.range nf) r.cellData hcd
  have hc : c < nf := by
    have h1 : c < r.cellData.length := by
      by_contra hcc
      rw [List.get?_eq_none.2 (le_of_not_lt hcc)] at hv
      cases hv
    rw [hcdlen, List.length_range] at h1
    exact h1
  obtain ⟨s, hs, hvs⟩ := hcdget c c (List.get?_range hc)
  rw [hv] at hvs
  cases hvs
  exact ⟨s, by rw [hcells]; exact hs, rfl⟩

/-- Concrete instance of the amended C7: the cell `"x y"` (no runs) maps
through unchanged. -/
theorem spec_C7_amended_witness :
    ∃ cell, (([["x y"]] : List (List String)).get? 0).bind
        (fun cs => cs.get? 0) = some cell ∧
      ("x y" : String).data = cell.data.map
        (fun ch => if isJsWhitespace ch then ' ' else ch) :=
  spec_C7_amended 1 [["x y"]] [Row.mk 0 ["x y"] true] (by rfl)
    0 (Row.mk 0 ["x y"] true) (by decide) 0 "x y" (by decide)

theorem applyMatches_congr (ds ds' : List Dropdown) (rows : List Row)
    (h : ds.map selValue = ds'.map selValue) :
    applyMatches ds rows = applyMatches ds' rows := by
  unfold applyMatches
  exact List.map_congr_left (fun r _ => by
    rw [rowMatchesFilters_congr ds ds' h r.cellData])

theorem applyMatches_applyMatches (e d : List Dropdown) (rows : List Row) :
    applyMatches e (applyMatches d rows) = applyMatches e rows := by
  unfold applyMatches
  rw [List.map_map]
  exact List.map_congr_left (fun r _ => by cases r; rfl)

theorem map_selValue_setSelectedIndex_zero :
    ∀ (ds : List Dropdown) (c : Nat),
      (∀ d, ds.get? c = some d → selValue d = none) →
      (setSelectedIndex ds c 0).map selValue = ds.map selValue := by
  intro ds
  induction ds with
  | nil => intro c _; rfl
  | cons d t ih =>
    intro c h
    cases c with
    | zero =>
      have hd : selValue d = none := h d rfl
      have h0 : selValue { d with selectedIndex := 0 } = none := rfl
      simp only [setSelectedIndex, List.map_cons, h0, hd]
    | succ c =>
      simp only [setSelectedIndex, List.map_cons]
      rw [ih c (fun d' hd' => h d' hd')]

/-- **C1** (amended): after a recomputation cycle, a column whose dropdown was
at the default selection is repopulated with exactly the sentinel followed by
the mutual-narrowing option set (its own selection being default, "visible
under all constraints" coincides with "visible under the other columns'
constraints"); a column with a non-default selection is skipped entirely and
retains its previous option list and selection, which the counterexample
shows can be stale relative to the other columns' current selections. -/
theorem spec_C1_amended (st : TableState)
    (hWF : RowsWF st.numberOfRows st.rowData) (c : Nat) (d : Dropdown)
    (hd : st.filterDropdowns.get? c = some d) :
    (d.selectedIndex = 0 →
      (columnFilterChangeHandler st).filterDropdowns.get? c =
        some (Dropdown.mk (st.config.emptyFilterText ::
          mutualNarrowOptions (columnFilterChangeHandler st) c) 0)) ∧
    (d.selectedIndex ≠ 0 →
      (columnFilterChangeHandler st).filterDropdowns.get? c = some d) := by
  have hrows1 : (filterData st).rowData = applyMatches st.filterDropdowns st.rowData :=
    filterData_rowData st hWF
  have hget : (columnFilterChangeHandler st).filterDropdowns.get? c =
      some (populateColumnFilter st.config (filterData st).rowData d c) := by
    show (populateFrom st.config (filterData st).rowData 0
        st.filterDropdowns).get? c = _
    rw [get?_populateFrom, hd]
    simp
  constructor
  · intro hsel
    rw [hget]
    unfold populateColumnFilter
    rw [if_pos hsel]
    have hmn : mutualNarrowOptions (columnFilterChangeHandler st) c =
        getVisibleDataCellValues (filterData st).rowData
          st.config.sortFilterValues c := by
      unfold mutualNarrowOptions
      have hcfg : (columnFilterChangeHandler st).config = st.config := rfl
      have hrd : (columnFilterChangeHandler st).rowData = (filterData st).rowData := rfl
      rw [hcfg, hrd]
      congr 1
      have hsels : ((columnFilterChangeHandler st).filterDropdowns).map selValue =
          st.filterDropdowns.map selValue := by
        show (populateFrom st.config (filterData st).rowData 0
            st.filterDropdowns).map selValue = _
        exact map_selValue_populateFrom st.config (filterData st).rowData
          st.filterDropdowns 0
      have hcnone : ∀ d', (columnFilterChangeHandler st).filterDropdowns.get? c =
          some d' → selValue d' = none := by
        intro d' hd'
        rw [hget] at hd'
        cases hd'
        rw [selValue_populateColumnFilter]
        unfold selValue
        rw [hsel]
        rfl
      rw [hrows1, applyMatches_applyMatches]
      refine (applyMatches_congr _ _ _ ?_).symm
      rw [map_selValue_setSelectedIndex_zero _ c hcnone, hsels]
    rw [hmn]
  · intro hsel
    rw [hget]
    unfold populateColumnFilter
    rw [if_neg hsel]

/-- Concrete instance of the amended C1: a default-selected column is rebuilt
as sentinel plus the mutual-narrowing set. -/
theorem spec_C1_amended_witness :
    (columnFilterChangeHandler
        (TableState.mk (Config.mk "" true (-1)) 1 2
          [Row.mk 0 ["b"] true, Row.mk 1 ["a"] true]
          [Dropdown.mk ["", "a", "b"] 0] [0, 1])).filterDropdowns.get? 0 =
      some (Dropdown.mk ("" ::
        mutualNarrowOptions (columnFilterChangeHandler
          (TableState.mk (Config.mk "" true (-1)) 1 2
            [Row.mk 0 ["b"] true, Row.mk 1 ["a"] true]
            [Dropdown.mk ["", "a", "b"] 0] [0, 1])) 0) 0) :=
  (spec_C1_amended
    (TableState.mk (Config.mk "" true (-1)) 1 2
      [Row.mk 0 ["b"] true, Row.mk 1 ["a"] true]
      [Dropdown.mk ["", "a", "b"] 0] [0, 1])
    (by
      refine ⟨rfl, fun i r hr => ?_⟩
      cases i with
      | zero => cases hr; rfl
      | succ i =>
        cases i with
        | zero => cases hr; rfl
        | succ i => cases hr)
    0 (Dropdown.mk ["", "a", "b"] 0) (by decide)).1 rfl

/-- **C1** (corrected, counterexample): 2 columns, rows (A,X),(B,X),(A,Y);
after the cycles "col0 := A", "col1 := X", "col0 := B", column 1's dropdown
still holds the stale options ["", "X", "Y"], but the mutual-narrowing set
for column 1 under col0 = "B" is just ["X"]: "Y" is offered although no row
with col0 = "B" has it. The code never recomputes options of a column with a
non-default selection (`selectedIndex <= 0` guard in `populateColumnFilter`),
and the options a default column does get reflect the fully filtered visible
set, so the claimed equality fails. -/
theorem spec_C1_counterexample :
    (let st0 := TableState.mk (Config.mk "" true (-1)) 2 3
      [Row.mk 0 ["A", "X"] true, Row.mk 1 ["B", "X"] true,
        Row.mk 2 ["A", "Y"] true]
      [Dropdown.mk ["", "A", "B"] 0, Dropdown.mk ["", "X", "Y"] 0] [0, 1, 2];
    let fin := applyEvents st0 [(0, 1), (1, 1), (0, 2)];
    TableFilterAttach (some (DomTable.mk "table" (some 2)
        (some [["A", "X"], ["B", "X"], ["A", "Y"]]))) none =
      AttachResult.attached st0 ∧
    (fin.filterDropdowns.get? 1).map Dropdown.options = some ["", "X", "Y"] ∧
    mutualNarrowOptions fin 1 = ["X"] ∧
    ("Y" : String) ∈ ["X", "Y"] ∧ ("Y" : String) ∉ ["X"]) := by
  decide

/-! ### Lemmas about `firstIdxOf` (the `querySelector` first-match search) -/

theorem firstIdxOf_mem :
    ∀ (l : List String) (v : String), v ∈ l → ∃ k, firstIdxOf l v = some k := by
  intro l
  induction l with
  | nil => intro v h; cases h
  | cons x xs ih =>
    intro v h
    by_cases hx : x = v
    · exact ⟨0, by simp [firstIdxOf, hx]⟩
    · have hmem : v ∈ xs := by
        rcases List.mem_cons.1 h with h' | h'
        · exact absurd h'.symm hx
        · exact h'
      obtain ⟨k, hk⟩ := ih v hmem
      exact ⟨k + 1, by simp [firstIdxOf, hx, hk]⟩

theorem firstIdxOf_not_mem :
    ∀ (l : List String) (v : String), v ∉ l → firstIdxOf l v = none := by
  intro l
  induction l with
  | nil => intro v _; rfl
  | cons x xs ih =>
    intro v h
    have hx : x ≠ v := fun he => h (he ▸ List.mem_cons_self x xs)
    have hmem : v ∉ xs := fun hm => h (List.mem_cons_of_mem x hm)
    simp [firstIdxOf, hx, ih v hmem]

theorem firstIdxOf_get :
    ∀ (l : List String) (v : String) (k : Nat),
      firstIdxOf l v = some k → l.get? k = some v := by
  intro l
  induction l with
  | nil => intro v k h; cases h
  | cons x xs ih =>
    intro v k h
    by_cases hx : x = v
    · rw [firstIdxOf, if_pos hx] at h
      cases h
      rw [hx]
      rfl
    · rw [firstIdxOf, if_neg hx] at h
      cases hfi : firstIdxOf xs v with
      | none => rw [hfi] at h; cases h
      | some k' =>
        rw [hfi] at h
        cases h
        exact ih v k' hfi

/-- CSS preprocessing is the identity on a value without CR, FF or NUL. -/
theorem cssPreprocess_plain :
    ∀ cs : List Char, (∀ c ∈ cs, c ≠ '\r' ∧ c ≠ '\x0c' ∧ c ≠ '\x00') →
      cssPreprocess cs = cs := by
  intro cs
  induction cs with
  | nil => intro _; rfl
  | cons c1 t ih =>
    intro h
    obtain ⟨hr, hf, h0⟩ := h c1 (List.mem_cons_self c1 t)
    have hmap : cssMapChar c1 = c1 := by
      rw [cssMapChar, if_neg (fun hc => hc.elim hr hf), if_neg h0]
    cases t with
    | nil =>
      show [cssMapChar c1] = [c1]
      rw [hmap]
    | cons c2 t2 =>
      show (if c1 = '\r' ∧ c2 = '\n' then '\n' :: cssPreprocess t2
        else cssMapChar c1 :: cssPreprocess (c2 :: t2)) = c1 :: c2 :: t2
      rw [if_neg (fun hc => hr hc.1), hmap,
        ih (fun c hc => h c (List.mem_cons_of_mem _ hc))]

/-- The CSS string tokenizer decodes a value without `"`, backslash or LF to
itself, given enough fuel. -/
theorem cssDecodeBodyF_plain :
    ∀ (f : Nat) (cs : List Char), cs.length < f →
      (∀ c ∈ cs, c ≠ '\"' ∧ c ≠ '\\' ∧ c ≠ '\n') →
      cssDecodeBodyF f cs = CssQuery.exact cs := by
  intro f
  induction f with
  | zero => intro cs hlen _; exact absurd hlen (Nat.not_lt_zero _)
  | succ f ih =>
    intro cs hlen h
    cases cs with
    | nil => rfl
    | cons c t =>
      obtain ⟨hq, hb, hn⟩ := h c (List.mem_cons_self c t)
      have hlen2 : t.length < f := by
        simp only [List.length_cons] at hlen; omega
      have h2 : ∀ x ∈ t, x ≠ '\"' ∧ x ≠ '\\' ∧ x ≠ '\n' :=
        fun x hx => h x (List.mem_cons_of_mem _ hx)
      simp only [cssDecodeBodyF]
      rw [if_neg hq, if_neg hn, if_neg hb, ih t hlen2 h2]
      rfl

/-- The interpolated string decodes to the value itself when the value has no
`"`, backslash or LF. -/
theorem cssDecodeBody_plain (cs : List Char)
    (h : ∀ c ∈ cs, c ≠ '\"' ∧ c ≠ '\\' ∧ c ≠ '\n') :
    cssDecodeBody cs = CssQuery.exact cs :=
  cssDecodeBodyF_plain (cs.length + 1) cs (Nat.lt_succ_self _) h

/-- **C9** (confirmed): running the change-handler cycle twice in a row from
the same selection state is the identity on the second run — same visible
flags, same materialized body, same option lists — and `showRow` on an
already-visible row and `hideRow` on an already-hidden row are no-ops (no
structural insertion or removal). -/
theorem spec_C9_idempotent (st : TableState)
    (hWF : RowsWF st.numberOfRows st.rowData) :
    columnFilterChangeHandler (columnFilterChangeHandler st) =
      columnFilterChangeHandler st ∧
    (∀ (n : Nat) (rows : List Row) (body : List Nat) (row : Row),
      row.visible = true → showRow n rows body row = (rows, body)) ∧
    (∀ (rows : List Row) (body : List Nat) (row : Row),
      row.visible = false → hideRow rows body row = (rows, body)) := by
  refine ⟨?_, ?_, ?_⟩
  · have hcyc : ∀ s : TableState, columnFilterChangeHandler s =
        { s with
          rowData := (filterDataRB s.filterDropdowns s.numberOfRows
            s.rowData s.body).1
          body := (filterDataRB s.filterDropdowns s.numberOfRows
            s.rowData s.body).2
          filterDropdowns := populateFrom s.config
            (filterDataRB s.filterDropdowns s.numberOfRows s.rowData s.body).1
            0 s.filterDropdowns } := fun s => rfl
    set st1 := columnFilterChangeHandler st with hst1
    have hcfg : st1.config = st.config := rfl
    have hrd1 : st1.rowData = applyMatches st.filterDropdowns st.rowData :=
      filterData_rowData st hWF
    have hds1 : st1.filterDropdowns =
        populateFrom st.config st1.rowData 0 st.filterDropdowns := rfl
    have hrowsWF1 : RowsWF st1.numberOfRows st1.rowData := by
      have hN : st1.numberOfRows = st.numberOfRows := rfl
      rw [hN, hrd1]
      exact rowsWF_applyMatches _ _ _ hWF
    have hsel1 : st1.filterDropdowns.map selValue =
        st.filterDropdowns.map selValue := by
      rw [hds1]
      exact map_selValue_populateFrom st.config st1.rowData
        st.filterDropdowns 0
    have hfl : ∀ i r, st1.rowData.get? i = some r →
        r.visible = rowMatchesFilters st1.filterDropdowns r.cellData := by
      intro i r hr
      rw [hrd1, get?_applyMatches] at hr
      cases hg : st.rowData.get? i with
      | none => rw [hg] at hr; cases hr
      | some r₀ =>
        rw [hg] at hr
        simp only [Option.map_some'] at hr
        cases hr
        exact (rowMatchesFilters_congr _ _ hsel1 r₀.cellData).symm
    have hfix : filterDataRB st1.filterDropdowns st1.numberOfRows
        st1.rowData st1.body = (st1.rowData, st1.body) :=
      filterDataRB_fixed _ _ _ _ hrowsWF1.1 hfl
    rw [hcyc st1, hfix]
    have hpop : populateFrom st1.config (st1.rowData, st1.body).1 0
        st1.filterDropdowns = st1.filterDropdowns := by
      show populateFrom st1.config st1.rowData 0 st1.filterDropdowns =
        st1.filterDropdowns
      rw [hcfg, hds1, populateFrom_idem st.config st1.rowData
        st.filterDropdowns 0, ← hds1]
    rw [hpop]
  · intro n rows body row hv
    unfold showRow
    rw [if_pos hv]
  · intro rows body row hv
    unfold hideRow
    rw [if_neg (by rw [hv]; simp)]

/-- Concrete instance of C9: a second cycle on a filtered 2-row table changes
nothing. -/
theorem spec_C9_idempotent_witness :
    columnFilterChangeHandler (columnFilterChangeHandler
      (TableState.mk (Config.mk "" true (-1)) 1 2
        [Row.mk 0 ["b"] true, Row.mk 1 ["a"] true]
        [Dropdown.mk ["", "a", "b"] 1] [0, 1])) =
    columnFilterChangeHandler
      (TableState.mk (Config.mk "" true (-1)) 1 2
        [Row.mk 0 ["b"] true, Row.mk 1 ["a"] true]
        [Dropdown.mk ["", "a", "b"] 1] [0, 1]) :=
  (spec_C9_idempotent
    (TableState.mk (Config.mk "" true (-1)) 1 2
      [Row.mk 0 ["b"] true, Row.mk 1 ["a"] true]
      [Dropdown.mk ["", "a", "b"] 1] [0, 1])
    ⟨rfl, by
      intro i r hr
      cases i with
      | zero => cases hr; rfl
      | succ i =>
        cases i with
        | zero => cases hr; rfl
        | succ i => cases hr⟩).1

/-! ### Option-list invariant (for C6) -/

theorem map_cellData_updateVisible (rows : List Row) (i : Nat) (b : Bool) :
    (updateVisible rows i b).map Row.cellData = rows.map Row.cellData := by
  induction rows generalizing i with
  | nil => rfl
  | cons r rs ih =>
    cases i with
    | zero => rfl
    | succ i => simp only [updateVisible, List.map_cons, ih i]

theorem map_cellData_filterStep (ds : List Dropdown) (n : Nat)
    (s : List Row × List Nat) (i : Nat) :
    (filterStep ds n s i).1.map Row.cellData = s.1.map Row.cellData := by
  unfold filterStep
  cases h : s.1.get? i with
  | none => rfl
  | some row =>
    show (if rowMatchesFilters ds row.cellData then showRow n s.1 s.2 row
        else hideRow s.1 s.2 row).1.map Row.cellData = s.1.map Row.cellData
    by_cases hm : rowMatchesFilters ds row.cellData = true
    · rw [if_pos hm]
      unfold showRow
      by_cases hv : row.visible = true
      · rw [if_pos hv]
      · rw [if_neg hv]
        exact map_cellData_updateVisible _ _ _
    · rw [if_neg hm]
      unfold hideRow
      by_cases hv : row.visible = true
      · rw [if_pos hv]
        exact map_cellData_updateVisible _ _ _
      · rw [if_neg hv]

theorem map_cellData_foldl_filterStep (ds : List Dropdown) (n : Nat) :
    ∀ (l : List Nat) (s : List Row × List Nat),
      (l.foldl (filterStep ds n) s).1.map Row.cellData =
        s.1.map Row.cellData := by
  intro l
  induction l with
  | nil => intro s; rfl
  | cons a t ih =>
    intro s
    rw [List.foldl_cons, ih (filterStep ds n s a), map_cellData_filterStep]

theorem get?_setSelectedIndex :
    ∀ (ds : List Dropdown) (c k c' : Nat),
      (setSelectedIndex ds c k).get? c' =
        if c' = c then (ds.get? c').map (fun d => { d with selectedIndex := k })
        else ds.get? c' := by
  intro ds
  induction ds with
  | nil => intro c k c'; simp [setSelectedIndex]
  | cons d t ih =>
    intro c k c'
    cases c with
    | zero =>
      cases c' with
      | zero => simp [setSelectedIndex]
      | succ c' => simp [setSelectedIndex]
    | succ c =>
      cases c' with
      | zero => simp [setSelectedIndex]
      | succ c' =>
        have h1 : (setSelectedIndex (d :: t) (c + 1) k).get? (c' + 1) =
            (setSelectedIndex t c k).get? c' := rfl
        have h2 : ((d :: t).get? (c' + 1)) = t.get? c' := rfl
        rw [h1, h2, ih c k c']
        by_cases h : c' = c
        · rw [if_pos h, if_pos (by omega)]
        · rw [if_neg h, if_neg (by omega)]

/-- The invariant C6 rests on: every dropdown's option list is the sentinel
followed by `getVisibleDataCellValues` of some row list with the same cell
data as the current snapshot (namely the snapshot as flagged at the moment
the dropdown was last rebuilt). -/
def OptionsInv (st : TableState) : Prop :=
  ∀ c d, st.filterDropdowns.get? c = some d →
    ∃ rs : List Row, rs.map Row.cellData = st.rowData.map Row.cellData ∧
      d.options = st.config.emptyFilterText ::
        getVisibleDataCellValues rs st.config.sortFilterValues c

theorem optionsInv_changeEvent (st : TableState) (c k : Nat)
    (h : OptionsInv st) : OptionsInv (changeEvent st c k) := by
  intro c' d' hd'
  have hcell1 : (changeEvent st c k).rowData.map Row.cellData =
      st.rowData.map Row.cellData := by
    show ((List.range st.numberOfRows).foldl
      (filterStep (setSelectedIndex st.filterDropdowns c k)
        st.numberOfRows) (st.rowData, st.body)).1.map Row.cellData = _
    exact map_cellData_foldl_filterStep _ _ _ _
  have hget : (changeEvent st c k).filterDropdowns.get? c' =
      ((setSelectedIndex st.filterDropdowns c k).get? c').map
        (fun d => populateColumnFilter st.config
          (changeEvent st c k).rowData d c') := by
    show (populateFrom st.config (changeEvent st c k).rowData 0
      (setSelectedIndex st.filterDropdowns c k)).get? c' = _
    rw [get?_populateFrom]
    simp
  rw [hget, get?_setSelectedIndex] at hd'
  have hmain : ∀ d₀, st.filterDropdowns.get? c' = some d₀ →
      ∀ sel₀, d' = populateColumnFilter st.config (changeEvent st c k).rowData
        { d₀ with selectedIndex := sel₀ } c' ∨
        d' = populateColumnFilter st.config (changeEvent st c k).rowData d₀ c' →
      ∃ rs : List Row,
        rs.map Row.cellData = (changeEvent st c k).rowData.map Row.cellData ∧
        d'.options = st.config.emptyFilterText ::
          getVisibleDataCellValues rs st.config.sortFilterValues c' := by
    intro d₀ hd₀ sel₀ hcase
    have hbase : ∀ dIn : Dropdown, dIn.options = d₀.options →
        d' = populateColumnFilter st.config (changeEvent st c k).rowData dIn c' →
        ∃ rs : List Row,
          rs.map Row.cellData = (changeEvent st c k).rowData.map Row.cellData ∧
          d'.options = st.config.emptyFilterText ::
            getVisibleDataCellValues rs st.config.sortFilterValues c' := by
      intro dIn hopts heq
      unfold populateColumnFilter at heq
      by_cases hsel : dIn.selectedIndex = 0
      · rw [if_pos hsel] at heq
        subst heq
        exact ⟨(changeEvent st c k).rowData, rfl, rfl⟩
      · rw [if_neg hsel] at heq
        subst heq
        obtain ⟨rs, hrs, ho⟩ := h c' d₀ hd₀
        exact ⟨rs, by rw [hrs, hcell1], by rw [hopts, ho]⟩
    rcases hcase with hcase | hcase
    · exact hbase { d₀ with selectedIndex := sel₀ } rfl hcase
    · exact hbase d₀ rfl hcase
  by_cases hc : c' = c
  · rw [if_pos hc] at hd'
    cases hg : st.filterDropdowns.get? c' with
    | none => rw [hg] at hd'; cases hd'
    | some d₀ =>
      rw [hg] at hd'
      simp only [Option.map_some', Option.some.injEq] at hd'
      have hconf : (changeEvent st c k).config = st.config := rfl
      rw [hconf]
      exact hmain d₀ hg k (Or.inl hd'.symm)
  · rw [if_neg hc] at hd'
    cases hg : st.filterDropdowns.get? c' with
    | none => rw [hg] at hd'; cases hd'
    | some d₀ =>
      rw [hg] at hd'
      simp only [Option.map_some', Option.some.injEq] at hd'
      have hconf : (changeEvent st c k).config = st.config := rfl
      rw [hconf]
      exact hmain d₀ hg 0 (Or.inr hd'.symm)

theorem optionsInv_applyEvents (events : List (Nat × Nat)) :
    ∀ (st : TableState), OptionsInv st → OptionsInv (applyEvents st events) := by
  induction events with
  | nil => intro st h; exact h
  | cons e t ih =>
    intro st h
    exact ih (changeEvent st e.1 e.2) (optionsInv_changeEvent st e.1 e.2 h)

theorem optionsInv_attach (t : DomTable) (opts : Option UserOptions)
    (st0 : TableState)
    (h : TableFilterAttach (some t) opts = AttachResult.attached st0) :
    OptionsInv st0 := by
  obtain ⟨rd, hbd, rfl⟩ := attach_attached_spec t opts st0 h
  intro c d hd
  have hd' : (populateFrom (parseConfig opts) rd 0
      (List.replicate (computeNumberOfColumns
        (parseConfig opts).numberOfColumns (t.thead.getD 0))
        (Dropdown.mk [] 0))).get? c = some d := hd
  rw [get?_populateFrom, List.get?_eq_getElem?, List.getElem?_replicate] at hd'
  by_cases hc : c < computeNumberOfColumns
      (parseConfig opts).numberOfColumns (t.thead.getD 0)
  · rw [if_pos hc] at hd'
    simp only [Option.map_some', Option.some.injEq] at hd'
    refine ⟨rd, rfl, ?_⟩
    rw [← hd']
    show (populateColumnFilter (parseConfig opts) rd (Dropdown.mk [] 0)
      (0 + c)).options = _
    unfold populateColumnFilter
    rw [if_pos rfl]
    simp
  · rw [if_neg hc] at hd'
    cases hd'

theorem config_applyEvents (events : List (Nat × Nat)) :
    ∀ st : TableState, (applyEvents st events).config = st.config := by
  induction events with
  | nil => intro st; rfl
  | cons e tl ih =>
    intro st
    have h1 : applyEvents st (e :: tl) = applyEvents (changeEvent st e.1 e.2) tl := rfl
    rw [h1, ih (changeEvent st e.1 e.2)]
    rfl

theorem nodup_collectValues (rows : List Row) (c : Nat) :
    (collectValues rows c).Nodup := by
  have key : ∀ (rows : List Row) (acc : List String), acc.Nodup →
      (rows.foldl (fun acc r =>
        match r.cellData.get? c with
        | some v => if r.visible && !(acc.contains v) then acc ++ [v] else acc
        | none => acc) acc).Nodup := by
    intro rows
    induction rows with
    | nil => intro acc h; exact h
    | cons r rest ih =>
      intro acc hacc
      rw [List.foldl_cons]
      apply ih
      cases hget : r.cellData.get? c with
      | none => exact hacc
      | some v =>
        show (if r.visible && !(acc.contains v) then acc ++ [v] else acc).Nodup
        by_cases hcond : (r.visible && !(acc.contains v)) = true
        · rw [if_pos hcond]
          have hv : v ∉ acc := by
            intro hmem
            have hc2 : acc.contains v = true := List.elem_iff.2 hmem
            rw [Bool.and_eq_true, hc2] at hcond
            simp at hcond
          rw [List.nodup_append]
          refine ⟨hacc, List.nodup_singleton v, ?_⟩
          intro a ha hmem
          rw [List.mem_singleton] at hmem
          exact hv (hmem ▸ ha)
        · rw [if_neg hcond]
          exact hacc
  exact key rows [] List.nodup_nil

theorem nodup_getVisibleDataCellValues (rows : List Row) (sortVals : Bool)
    (c : Nat) : (getVisibleDataCellValues rows sortVals c).Nodup := by
  cases sortVals with
  | false => exact nodup_collectValues rows c
  | true =>
    show ((collectValues rows c).insertionSort jsLeProp).Nodup
    exact (List.perm_insertionSort jsLeProp (collectValues rows c)).nodup_iff.2
      (nodup_collectValues rows c)

theorem sorted_getVisibleDataCellValues (rows : List Row) (c : Nat) :
    List.Sorted (· ≤ ·) (getVisibleDataCellValues rows true c) := by
  show List.Sorted (· ≤ ·) ((collectValues rows c).insertionSort jsLeProp)
  rw [← sorted_jsLeProp_iff]
  exact List.sorted_insertionSort jsLeProp (collectValues rows c)

theorem sorted_lt_of_sorted_le_nodup (l : List String)
    (hs : List.Sorted (· ≤ ·) l) (hn : l.Nodup) :
    List.Sorted (· < ·) l :=
  (List.Pairwise.and hs hn).imp (fun hab => lt_of_le_of_ne hab.1 hab.2)

theorem collectValues_eq_firstOccurrence (rows : List Row) (c : Nat) :
    collectValues rows c = firstOccurrenceList
      ((rows.filter (fun r => r.visible)).filterMap
        (fun r => r.cellData.get? c)) := by
  have key : ∀ (rows : List Row) (acc : List String),
      rows.foldl (fun acc r =>
        match r.cellData.get? c with
        | some v => if r.visible && !(acc.contains v) then acc ++ [v] else acc
        | none => acc) acc =
      ((rows.filter (fun r => r.visible)).filterMap
        (fun r => r.cellData.get? c)).foldl
        (fun acc v => if acc.contains v then acc else acc ++ [v]) acc := by
    intro rows
    induction rows with
    | nil => intro acc; rfl
    | cons r rest ih =>
      intro acc
      rw [List.foldl_cons]
      by_cases hv : r.visible = true
      · rw [List.filter_cons_of_pos (by simpa using hv)]
        cases hget : r.cellData.get? c with
        | none =>
          rw [@List.filterMap_cons_none Row String
            (fun r => r.cellData.get? c) r
            (List.filter (fun r => r.visible) rest) hget]
          exact ih acc
        | some v =>
          rw [@List.filterMap_cons_some Row String
            (fun r => r.cellData.get? c) r
            (List.filter (fun r => r.visible) rest) v hget,
            List.foldl_cons]
          have hstep : (if r.visible && !(acc.contains v) then acc ++ [v]
              else acc) = (if acc.contains v then acc else acc ++ [v]) := by
            cases hacc : acc.contains v <;> simp [hv, hacc]
          simp only [hstep]
          exact ih _
      · have hvf : r.visible = false := by simpa using hv
        rw [List.filter_cons_of_neg (by simp [hvf])]
        cases hget : r.cellData.get? c with
        | none => exact ih acc
        | some v =>
          have hstep : (if r.visible && !(acc.contains v) then acc ++ [v]
              else acc) = acc := by
            simp [hvf]
          simp only [hstep]
          exact ih acc
  exact key rows []

end TableFilter
